import Mathlib

/-!
Verification of the agent-runtime durable execution scheduler.

This file is a shallow embedding of the scheduler core of the repository:
the run/step domain model (internal/domain), the run repository
(internal/repository/run_repo.go: CreateRun, GetRun, GetRunCost, CancelRun,
ApproveRun), the step repository (ListSteps), the event repository
(ListEventsAfter), the worker claim/execute/commit loop
(internal/worker/worker.go: claimOneStep, markStepSucceeded, markStepFailed,
backoffDelay, resolveStepTimeout), and the terminal webhook dispatcher
(deliverTerminalWebhook, signWebhookPayload).

The SQL store is modelled as lists of rows; each repository operation is a
pure function from a database state to a result together with the database
state after the transaction commits (on error the transaction rolls back and
the state is returned unchanged).  Timestamps and durations are modelled as
integers (Go stores both as int64 nanoseconds); UUIDs are modelled as natural
numbers; JSON payload columns that no property inspects are either omitted or
carried as plain strings.
-/

namespace AgentRuntime

/-- Run status enumeration, from internal/domain/run.go. -/
inductive RunStatus where
  | pending
  | running
  | waitingApproval
  | succeeded
  | failed
  | canceled
  deriving DecidableEq, Repr

/-- Step status enumeration, from internal/domain/step.go. -/
inductive StepStatus where
  | pending
  | running
  | waitingApproval
  | succeeded
  | failed
  | canceled
  deriving DecidableEq, Repr

/-- Step name enumeration, from internal/domain/step.go. -/
inductive StepName where
  | llm
  | tool
  | approval
  deriving DecidableEq, Repr

/-- DefaultMaxConcurrentRuns, from internal/domain/api_key.go. -/
def DefaultMaxConcurrentRuns : Int := 5

/-- A row of the api_keys table (columns the scheduler core reads). -/
structure ApiKeyRow where
  id : Nat
  maxConcurrentRuns : Int
  deriving DecidableEq, Repr

/-- A row of the runs table (columns the scheduler core reads or writes). -/
structure RunRow where
  id : Nat
  apiKeyId : Nat
  status : RunStatus
  priority : Int
  webhookUrl : String
  webhookSecret : String
  totalCostUsd : Int
  updatedAt : Int
  deriving DecidableEq, Repr

/-- A row of the steps table (columns the scheduler core reads or writes).
Timestamps are integers; NULLable columns are Options. -/
structure StepRow where
  id : Nat
  runId : Nat
  name : StepName
  status : StepStatus
  timeoutSeconds : Option Int
  nextRunAt : Option Int
  costUsd : Int
  input : Option String
  output : Option String
  startedAt : Option Int
  finishedAt : Option Int
  attempts : Int
  createdAt : Int
  deriving DecidableEq, Repr

/-- A row of the events table.  Event payloads are opaque JSON that no
verified property inspects, so only the identifying columns are kept. -/
structure EventRow where
  seq : Nat
  id : Nat
  runId : Nat
  stepId : Option Nat
  type : String
  deriving DecidableEq, Repr

/-- A row of the run_requests (idempotency binding) table. -/
structure RunRequestRow where
  id : Nat
  apiKeyId : Nat
  idempotencyKey : String
  runId : Nat
  deriving DecidableEq, Repr

/-- A step descriptor of a workflow template
(workflow_template_steps joined to its template). -/
structure TemplateStepRow where
  position : Int
  name : StepName
  timeoutSeconds : Option Int
  deriving DecidableEq, Repr

/-- A workflow template with its step descriptors. -/
structure TemplateRow where
  name : String
  steps : List TemplateStepRow
  deriving DecidableEq, Repr

/-- The database state: one list per relation, plus a counter used to mint
fresh identifiers and event sequence numbers. -/
structure DB where
  apiKeys : List ApiKeyRow
  runs : List RunRow
  steps : List StepRow
  events : List EventRow
  runRequests : List RunRequestRow
  templates : List TemplateRow
  nextId : Nat
  deriving DecidableEq, Repr

/-- Errors surfaced by the repository layer.  noRows models pgx.ErrNoRows;
the named kinds model domain.ErrMaxConcurrentRunsExceeded and
domain.ErrWorkflowTemplateNotFound. -/
inductive RepoError where
  | noRows
  | limitExceeded
  | templateNotFound
  deriving DecidableEq, Repr

/-- Worker configuration (worker.Deps after New applies its defaults). -/
structure WorkerCfg where
  apiKeyId : Nat
  reclaimAfter : Int
  maxAttempts : Int
  retryBaseDelay : Int
  defaultStepTimeout : Int
  deriving DecidableEq, Repr

/-- The claim descriptor returned by claimOneStep (worker.claimedStep). -/
structure ClaimedStep where
  stepId : Nat
  runId : Nat
  name : StepName
  status : StepStatus
  timeout : Int
  deriving DecidableEq, Repr

/-- First api_keys row with the given id (SELECT ... FROM api_keys WHERE id=$1). -/
def findApiKey (db : DB) (id : Nat) : Option ApiKeyRow :=
  (db.apiKeys.filter (fun k => k.id = id)).head?

/-- First runs row with the given id. -/
def findRunById (db : DB) (id : Nat) : Option RunRow :=
  (db.runs.filter (fun r => r.id = id)).head?

/-- First steps row with the given id. -/
def findStepById (db : DB) (id : Nat) : Option StepRow :=
  (db.steps.filter (fun s => s.id = id)).head?

/-- Apply an update to every steps row with the given id (UPDATE steps ... WHERE id=$1). -/
def updateStepById (db : DB) (id : Nat) (f : StepRow → StepRow) : DB :=
  { db with steps := db.steps.map (fun s => if s.id = id then f s else s) }

/-- Apply an update to every runs row with the given id (UPDATE runs ... WHERE id=$1). -/
def updateRunById (db : DB) (id : Nat) (f : RunRow → RunRow) : DB :=
  { db with runs := db.runs.map (fun r => if r.id = id then f r else r) }

/-- INSERT INTO events (id, run_id, step_id, type, payload); the sequence
number is minted from the monotone counter (seq BIGSERIAL). -/
def insertEvent (db : DB) (runId : Nat) (stepId : Option Nat) (type : String) : DB :=
  { db with
    events := db.events ++ [{ seq := db.nextId, id := db.nextId, runId := runId,
                              stepId := stepId, type := type }]
    nextId := db.nextId + 1 }

/-- A whitespace character as recognized by strings.TrimSpace. -/
def isSpaceChar (c : Char) : Bool :=
  c = ' ' || c = '\t' || c = '\n' || c = '\r'

/-- strings.TrimSpace (Go standard library): drop whitespace from both ends. -/
def trimSpace (s : String) : String :=
  String.mk (((s.data.dropWhile isSpaceChar).reverse.dropWhile isSpaceChar).reverse)

/-- Terminal run statuses (SUCCEEDED, FAILED, CANCELED). -/
def isTerminalRun (s : RunStatus) : Bool :=
  s = RunStatus.canceled || s = RunStatus.succeeded || s = RunStatus.failed

/-- Largest time.Duration value, 2^63 - 1 nanoseconds (worker.backoffDelay). -/
def maxDuration : Int := 2 ^ 63 - 1

/-- Nanoseconds in one second (Go time.Second). -/
def nsPerSecond : Int := 1000000000

/-- The doubling loop of worker.backoffDelay: double the delay once per
iteration, returning maxDuration as soon as the delay exceeds half of it. -/
def backoffDouble (delay : Int) : Nat → Int
  | 0 => delay
  | n + 1 => if delay > maxDuration / 2 then maxDuration else backoffDouble (delay * 2) n

/-- worker.backoffDelay: exponential backoff base·2^attempts, saturating at
maxDuration; non-positive base defaults to 2 s, non-positive attempts yield
the base. -/
def backoffDelay (base : Int) (attempts : Int) : Int :=
  let b := if base ≤ 0 then 2 * nsPerSecond else base
  if attempts ≤ 0 then b
  else backoffDouble b attempts.toNat

/-- worker.resolveStepTimeout: the stored positive timeout (seconds, converted
to a duration), else the worker default, else 30 s. -/
def resolveStepTimeout (timeoutSeconds : Option Int) (defaultTimeout : Int) : Int :=
  match timeoutSeconds with
  | some t =>
      if t > 0 then t * nsPerSecond
      else if defaultTimeout ≤ 0 then 30 * nsPerSecond else defaultTimeout
  | none =>
      if defaultTimeout ≤ 0 then 30 * nsPerSecond else defaultTimeout

/-- The WHERE predicate of the claim query in worker.claimOneStep, for a step
row st joined to its owning run row r.  reclaimBefore = now − reclaimAfter. -/
def stepEligible (w : WorkerCfg) (now : Int) (db : DB) (st : StepRow) (r : RunRow) : Bool :=
  (st.status = StepStatus.pending ||
    (st.status = StepStatus.running &&
      (match st.startedAt with
       | some t => t < now - w.reclaimAfter
       | none => false)))
  && (match st.nextRunAt with
      | some t => t ≤ now
      | none => true)
  && !(st.name = StepName.approval)
  && !(r.status = RunStatus.canceled || r.status = RunStatus.failed ||
       r.status = RunStatus.succeeded)
  && r.apiKeyId = w.apiKeyId
  && db.steps.all (fun s2 =>
       !(s2.runId = st.runId && s2.createdAt < st.createdAt &&
         !(s2.status = StepStatus.succeeded)))

/-- The JOIN of steps with their owning runs, filtered by the claim
predicate: the candidate rows of the claim query. -/
def eligiblePairs (w : WorkerCfg) (now : Int) (db : DB) : List (StepRow × RunRow) :=
  (db.steps.flatMap (fun st =>
    (db.runs.filter (fun r => r.id = st.runId)).map (fun r => (st, r)))).filter
    (fun p => stepEligible w now db p.1 p.2)

/-- ORDER BY r.priority DESC, st.created_at ASC: q sorts strictly before p. -/
def betterPair (q p : StepRow × RunRow) : Bool :=
  p.2.priority < q.2.priority ||
    (q.2.priority = p.2.priority && q.1.createdAt < p.1.createdAt)

/-- LIMIT 1 of the ordered candidate rows: the first row no other candidate
sorts strictly before. -/
def selectStep : List (StepRow × RunRow) → Option (StepRow × RunRow)
  | [] => none
  | p :: ps => some (ps.foldl (fun acc q => if betterPair q acc then q else acc) p)

/-- The tenant concurrency gate count of worker.claimOneStep: steps in
RUNNING whose owning run belongs to the worker's api key. -/
def runningStepsCount (db : DB) (apiKeyId : Nat) : Nat :=
  (db.steps.filter (fun st =>
    st.status = StepStatus.running &&
      db.runs.any (fun r => r.id = st.runId && r.apiKeyId = apiKeyId))).length

/-- The effective concurrency ceiling: the stored value, or
DefaultMaxConcurrentRuns when the stored value is ≤ 0. -/
def effectiveMaxConcurrentRuns (stored : Int) : Int :=
  if stored ≤ 0 then DefaultMaxConcurrentRuns else stored

/-- worker.claimOneStep: read the tenant ceiling, apply the concurrency gate,
select an eligible step under the claim ordering, mark it RUNNING (COALESCE
started_at, clear next_run_at, increment attempts, write the input snapshot),
advance a PENDING owning run to RUNNING, and append a STEP_CLAIMED event.
Errors roll the transaction back, leaving the state unchanged. -/
def claimOneStep (w : WorkerCfg) (now : Int) (db : DB) :
    Except RepoError ClaimedStep × DB :=
  match findApiKey db w.apiKeyId with
  | none => (Except.error RepoError.noRows, db)
  | some key =>
    let maxConcurrency := effectiveMaxConcurrentRuns key.maxConcurrentRuns
    if (runningStepsCount db w.apiKeyId : Int) ≥ maxConcurrency then
      (Except.error RepoError.noRows, db)
    else
      match selectStep (eligiblePairs w now db) with
      | none => (Except.error RepoError.noRows, db)
      | some (st, _r) =>
        let db1 := updateStepById db st.id (fun s =>
          { s with status := StepStatus.running,
                   startedAt := some (s.startedAt.getD now),
                   input := some "claim snapshot",
                   nextRunAt := none,
                   attempts := s.attempts + 1 })
        let db2 := { db1 with runs := db1.runs.map (fun r =>
          if r.id = st.runId && r.status = RunStatus.pending then
            { r with status := RunStatus.running, updatedAt := now }
          else r) }
        let db3 := insertEvent db2 st.runId (some st.id) "STEP_CLAIMED"
        (Except.ok { stepId := st.id, runId := st.runId, name := st.name,
                     status := st.status,
                     timeout := resolveStepTimeout st.timeoutSeconds w.defaultStepTimeout },
         db3)

/-- worker.markStepFailed: read the step's attempt counter; while attempts
are below the worker maximum, schedule a retry (status PENDING, next_run_at
= now + backoff, finished_at = now, STEP_FAILED_RETRY event); otherwise fail
the step permanently (status FAILED, next_run_at NULL, STEP_FAILED event) and
flip the owning run to FAILED wherever its status differs from FAILED. -/
def markStepFailed (w : WorkerCfg) (now : Int) (stepId : Nat) (errMsg : String)
    (db : DB) : Except RepoError Unit × DB :=
  match findStepById db stepId with
  | none => (Except.error RepoError.noRows, db)
  | some st =>
    let attempts := st.attempts
    let runId := st.runId
    if attempts < w.maxAttempts then
      let nextRunAt := now + backoffDelay w.retryBaseDelay attempts
      let db1 := updateStepById db stepId (fun s =>
        { s with status := StepStatus.pending,
                 output := some errMsg,
                 nextRunAt := some nextRunAt,
                 finishedAt := some now })
      let db2 := insertEvent db1 runId (some stepId) "STEP_FAILED_RETRY"
      (Except.ok (), db2)
    else
      let db1 := updateStepById db stepId (fun s =>
        { s with status := StepStatus.failed,
                 output := some errMsg,
                 nextRunAt := none,
                 finishedAt := some now })
      let db2 := insertEvent db1 runId (some stepId) "STEP_FAILED"
      let db3 := { db2 with runs := db2.runs.map (fun r =>
        if r.id = runId && !(r.status = RunStatus.failed) then
          { r with status := RunStatus.failed, updatedAt := now }
        else r) }
      (Except.ok (), db3)

/-- worker.markStepSucceeded: set the step SUCCEEDED with its output and
cost, add the cost to the run total, append STEP_SUCCEEDED; after a TOOL
step flip the run's PENDING APPROVAL step to WAITING_APPROVAL (appending
STEP_WAITING_APPROVAL when a row was flipped); finally set the run
SUCCEEDED where no step of the run has a status other than SUCCEEDED. -/
def markStepSucceeded (now : Int) (step : ClaimedStep)
    (output : String) (costUsd : Int) (db : DB) : Except RepoError Unit × DB :=
  let db1 := updateStepById db step.stepId (fun s =>
    { s with status := StepStatus.succeeded,
             output := some output,
             costUsd := costUsd,
             nextRunAt := none,
             finishedAt := some now })
  let db2 := updateRunById db1 step.runId (fun r =>
    { r with totalCostUsd := r.totalCostUsd + costUsd })
  let db3 := insertEvent db2 step.runId (some step.stepId) "STEP_SUCCEEDED"
  let waitingFlipped :=
    if step.name = StepName.tool then
      db3.steps.filter (fun s =>
        s.runId = step.runId && s.name = StepName.approval &&
          s.status = StepStatus.pending)
    else []
  let db4 :=
    if step.name = StepName.tool then
      { db3 with steps := db3.steps.map (fun s =>
        if s.runId = step.runId && s.name = StepName.approval &&
            s.status = StepStatus.pending then
          { s with status := StepStatus.waitingApproval }
        else s) }
    else db3
  let db5 :=
    match waitingFlipped.head? with
    | some a => insertEvent db4 step.runId (some a.id) "STEP_WAITING_APPROVAL"
    | none => db4
  let allSucceeded := db5.steps.all (fun s =>
    !(s.runId = step.runId) || s.status = StepStatus.succeeded)
  let db6 :=
    if allSucceeded then
      updateRunById db5 step.runId (fun r =>
        { r with status := RunStatus.succeeded, updatedAt := now })
    else db5
  (Except.ok (), db6)

/-- The tenant-scoped run read shared by the repository operations
(SELECT ... FROM runs WHERE id=$1 AND api_key_id=$2). -/
def findRunForApiKey (db : DB) (runId : Nat) (apiKeyId : Nat) : Option RunRow :=
  (db.runs.filter (fun r => r.id = runId && r.apiKeyId = apiKeyId)).head?

/-- RunRepository.GetRun: the run's status under the caller's tenant scope. -/
def GetRun (caller : Nat) (runId : Nat) (db : DB) : Except RepoError RunStatus × DB :=
  match findRunForApiKey db runId caller with
  | none => (Except.error RepoError.noRows, db)
  | some r => (Except.ok r.status, db)

/-- StepRepository.ListSteps: ownership check under the caller's tenant
scope, then the run's steps ordered by created_at. -/
def ListSteps (caller : Nat) (runId : Nat) (db : DB) :
    Except RepoError (List StepRow) × DB :=
  match findRunForApiKey db runId caller with
  | none => (Except.error RepoError.noRows, db)
  | some _ =>
    (Except.ok ((db.steps.filter (fun s => s.runId = runId)).insertionSort
      (fun a b => a.createdAt ≤ b.createdAt)), db)

/-- The cost breakdown returned by RunRepository.GetRunCost. -/
structure RunCostBreakdown where
  runId : Nat
  totalCostUsd : Int
  steps : List StepRow
  deriving DecidableEq, Repr

/-- RunRepository.GetRunCost: the run total under the caller's tenant scope,
with the per-step rows ordered by created_at. -/
def GetRunCost (caller : Nat) (runId : Nat) (db : DB) :
    Except RepoError RunCostBreakdown × DB :=
  match findRunForApiKey db runId caller with
  | none => (Except.error RepoError.noRows, db)
  | some r =>
    (Except.ok { runId := runId, totalCostUsd := r.totalCostUsd,
                 steps := (db.steps.filter (fun s => s.runId = runId)).insertionSort
                   (fun a b => a.createdAt ≤ b.createdAt) }, db)

/-- RunRepository.CancelRun: read the run status under the caller's tenant
scope; terminal runs commit unchanged; otherwise set the run CANCELED, cancel
its PENDING/RUNNING/WAITING_APPROVAL steps (COALESCE finished_at), and append
RUN_CANCELED. -/
def CancelRun (caller : Nat) (now : Int) (runId : Nat) (db : DB) :
    Except RepoError Unit × DB :=
  match findRunForApiKey db runId caller with
  | none => (Except.error RepoError.noRows, db)
  | some r =>
    if isTerminalRun r.status then (Except.ok (), db)
    else
      let db1 := updateRunById db runId (fun rr =>
        { rr with status := RunStatus.canceled, updatedAt := now })
      let db2 := { db1 with steps := db1.steps.map (fun s =>
        if s.runId = runId &&
            (s.status = StepStatus.pending || s.status = StepStatus.running ||
              s.status = StepStatus.waitingApproval) then
          { s with status := StepStatus.canceled,
                   finishedAt := some (s.finishedAt.getD now) }
        else s) }
      let db3 := insertEvent db2 runId none "RUN_CANCELED"
      (Except.ok (), db3)

/-- RunRepository.ApproveRun: read the run status under the caller's tenant
scope; terminal runs commit unchanged; otherwise flip the run's
WAITING_APPROVAL APPROVAL step to SUCCEEDED (COALESCE started_at and
finished_at); with no affected row commit unchanged; otherwise append
STEP_APPROVED and RUN_APPROVED and set the run SUCCEEDED when no step of the
run remains unsucceeded, RUNNING otherwise. -/
def ApproveRun (caller : Nat) (now : Int) (runId : Nat) (db : DB) :
    Except RepoError Unit × DB :=
  match findRunForApiKey db runId caller with
  | none => (Except.error RepoError.noRows, db)
  | some r =>
    if isTerminalRun r.status then (Except.ok (), db)
    else
      let affected := db.steps.filter (fun s =>
        s.runId = runId && s.name = StepName.approval &&
          s.status = StepStatus.waitingApproval)
      let db1 := { db with steps := db.steps.map (fun s =>
        if s.runId = runId && s.name = StepName.approval &&
            s.status = StepStatus.waitingApproval then
          { s with status := StepStatus.succeeded,
                   startedAt := some (s.startedAt.getD now),
                   finishedAt := some (s.finishedAt.getD now) }
        else s) }
      match affected.head? with
      | none => (Except.ok (), db1)
      | some a =>
        let db2 := insertEvent db1 runId (some a.id) "STEP_APPROVED"
        let db3 := insertEvent db2 runId none "RUN_APPROVED"
        let remaining := (db3.steps.filter (fun s =>
          s.runId = runId && !(s.status = StepStatus.succeeded))).length
        let newStatus :=
          if remaining = 0 then RunStatus.succeeded else RunStatus.running
        let db4 := updateRunById db3 runId (fun rr =>
          { rr with status := newStatus, updatedAt := now })
        (Except.ok (), db4)

/-- EventRepository.ListEventsAfter: events of the run joined to a run row of
the caller's tenant, with seq above the cursor, ordered by seq.  A wrong
tenant yields an empty list, not an error. -/
def ListEventsAfter (caller : Nat) (runId : Nat) (afterSeq : Nat) (db : DB) :
    Except RepoError (List EventRow) × DB :=
  (Except.ok ((db.events.filter (fun e =>
      e.runId = runId && afterSeq < e.seq &&
        db.runs.any (fun r => r.id = runId && r.apiKeyId = caller))).insertionSort
      (fun a b => a.seq ≤ b.seq)), db)

/-- The events endpoint of the HTTP router: GetRun enforces tenant ownership
(hiding cross-tenant existence) before events are listed. -/
def ListRunEventsGuarded (caller : Nat) (runId : Nat) (afterSeq : Nat) (db : DB) :
    Except RepoError (List EventRow) × DB :=
  match GetRun caller runId db with
  | (Except.error e, db1) => (Except.error e, db1)
  | (Except.ok _, db1) => ListEventsAfter caller runId afterSeq db1

/-- domain.CreateRunParams (template name, priority, webhook target). -/
structure CreateRunParams where
  templateName : String
  priority : Int
  webhookUrl : String
  deriving DecidableEq, Repr

/-- The idempotency lookup of RunRepository.CreateRun
(SELECT run_id FROM run_requests WHERE api_key_id=$1 AND idempotency_key=$2). -/
def findRunRequest (db : DB) (apiKeyId : Nat) (key : String) : Option RunRequestRow :=
  (db.runRequests.filter (fun rr =>
    rr.apiKeyId = apiKeyId && rr.idempotencyKey = key)).head?

/-- RunRepository.loadWorkflowTemplateSteps: the named template's step
descriptors ordered by position; a missing template or an empty step list
yields none (pgx.ErrNoRows). -/
def loadWorkflowTemplateSteps (db : DB) (name : String) : Option (List TemplateStepRow) :=
  match (db.templates.filter (fun t => t.name = name)).head? with
  | none => none
  | some t =>
    let steps := t.steps.insertionSort (fun a b => a.position ≤ b.position)
    if steps.isEmpty then none else some steps

/-- The admission count of RunRepository.CreateRun: the tenant's runs with
status RUNNING or WAITING_APPROVAL. -/
def activeRunsCount (db : DB) (apiKeyId : Nat) : Nat :=
  (db.runs.filter (fun r =>
    r.apiKeyId = apiKeyId &&
      (r.status = RunStatus.running || r.status = RunStatus.waitingApproval))).length

/-- Insert one PENDING steps row per template descriptor, in template order
(all rows of the transaction share the created_at timestamp NOW()). -/
def insertTemplateSteps (now : Int) (runId : Nat) (db : DB) :
    List TemplateStepRow → DB
  | [] => db
  | ts :: rest =>
    let row : StepRow :=
      { id := db.nextId, runId := runId, name := ts.name,
        status := StepStatus.pending, timeoutSeconds := ts.timeoutSeconds,
        nextRunAt := none, costUsd := 0, input := none, output := none,
        startedAt := none, finishedAt := none, attempts := 0, createdAt := now }
    insertTemplateSteps now runId
      { db with steps := db.steps ++ [row], nextId := db.nextId + 1 } rest

/-- The template name CreateRun resolves: the trimmed requested name, or
the default template name when blank. -/
def resolvedTemplateName (params : CreateRunParams) : String :=
  if trimSpace params.templateName = "" then "default"
  else trimSpace params.templateName

/-- RunRepository.CreateRun.  `race` models a run_requests row committed by a
concurrent transaction between this transaction's idempotency lookup and its
binding insert: it is visible to the unique-constraint check and to the
out-of-transaction retry lookup, and it is what makes the insert hit a unique
violation.  On the lookup-hit and unique-violation paths the transaction does
not commit, so the state is returned unchanged. -/
def CreateRun (caller : Nat) (now : Int) (params : CreateRunParams)
    (idempotencyKey : Option String) (race : Option RunRequestRow) (db : DB) :
    Except RepoError Nat × DB :=
  let runId := db.nextId
  let templateName := resolvedTemplateName params
  let webhookUrl := trimSpace params.webhookUrl
  let lookupHit :=
    match idempotencyKey with
    | some k => findRunRequest db caller k
    | none => none
  match lookupHit with
  | some rr => (Except.ok rr.runId, db)
  | none =>
    match findApiKey db caller with
    | none => (Except.error RepoError.noRows, db)
    | some key =>
      let ceiling := effectiveMaxConcurrentRuns key.maxConcurrentRuns
      if (activeRunsCount db caller : Int) ≥ ceiling then
        (Except.error RepoError.limitExceeded, db)
      else
        match loadWorkflowTemplateSteps db templateName with
        | none => (Except.error RepoError.templateNotFound, db)
        | some tsteps =>
          let runRow : RunRow :=
            { id := runId, apiKeyId := caller, status := RunStatus.pending,
              priority := params.priority, webhookUrl := webhookUrl,
              webhookSecret := "", totalCostUsd := 0, updatedAt := now }
          let db1 := { db with runs := db.runs ++ [runRow],
                               nextId := db.nextId + 1 }
          let db2 := insertTemplateSteps now runId db1 tsteps
          match idempotencyKey with
          | none => (Except.ok runId, db2)
          | some k =>
            let committed := db.runRequests ++ race.toList
            match (committed.filter (fun rr =>
              rr.apiKeyId = caller && rr.idempotencyKey = k)).head? with
            | some winner => (Except.ok winner.runId, db)
            | none =>
              let bindingRow : RunRequestRow :=
                { id := db2.nextId, apiKeyId := caller,
                  idempotencyKey := k, runId := runId }
              let db3 := { db2 with
                runRequests := db2.runRequests ++ [bindingRow],
                nextId := db2.nextId + 1 }
              (Except.ok runId, db3)

/-! ## Terminal webhook dispatcher (deliverTerminalWebhook) -/

/-- Total POST attempts of the webhook dispatcher (webhookRetryAttempts). -/
def webhookRetryAttempts : Nat := 3

/-- Base sleep between webhook attempts, 300 ms in nanoseconds
(webhookRetryBase). -/
def webhookRetryBase : Int := 300 * 1000000

/-- The outcome the HTTP client reports for one webhook POST attempt. -/
inductive HttpResult where
  | transportError
  | status (code : Int)
  deriving DecidableEq, Repr

/-- The dispatcher's environment: the outcome of each (1-based) attempt and
whether the context is already done at the retry sleep after each attempt. -/
structure WebhookWorld where
  results : Nat → HttpResult
  canceledAt : Nat → Bool

/-- One outgoing webhook request: target, content type, the optional
X-Signature header, and the exact body bytes. -/
structure WebhookRequest where
  url : String
  contentType : String
  signature : Option String
  body : List Nat
  deriving DecidableEq, Repr

/-- What the dispatcher did: requests sent in order, sleeps between attempts
in order, and whether the retry loop was aborted by context cancellation. -/
structure WebhookTrace where
  requests : List WebhookRequest
  sleeps : List Int
  canceled : Bool
  deriving DecidableEq, Repr

/-- Lowercase hexadecimal digits (encoding/hex). -/
def hexDigits : List Char :=
  "0123456789abcdef".data

/-- One byte as two lowercase hex characters. -/
def hexByte (b : Nat) : List Char :=
  [hexDigits.getD (b / 16 % 16) '0', hexDigits.getD (b % 16) '0']

/-- hex.EncodeToString: lowercase hex of a byte sequence. -/
def hexEncode (bs : List Nat) : String :=
  String.mk (bs.flatMap hexByte)

/-- signWebhookPayload: empty for a whitespace-only secret, otherwise the
lowercase hex of the MAC of the body keyed by the secret.  `mac` stands for
crypto/hmac with SHA-256, which is outside this repository. -/
def signWebhookPayload (mac : String → List Nat → List Nat) (secret : String)
    (payload : List Nat) : String :=
  if trimSpace secret = "" then "" else hexEncode (mac secret payload)

/-- Whether a response status stops the retry loop
(200 ≤ code < 300, i.e. StatusOK ≤ code < StatusMultipleChoices). -/
def webhookSuccess : HttpResult → Bool
  | HttpResult.transportError => false
  | HttpResult.status code => 200 ≤ code && code < 300

/-- The retry loop of deliverTerminalWebhook.  `attempt` is the 1-based
attempt number and `fuel` the number of attempts still allowed; the loop
starts at attempt 1 with fuel webhookRetryAttempts.  A 2xx response returns;
after a failed non-final attempt the dispatcher sleeps base·2^(attempt−1)
unless the context is done, in which case it returns with canceled = true. -/
def deliverLoop (world : WebhookWorld) (req : WebhookRequest) :
    Nat → Nat → WebhookTrace
  | _, 0 => { requests := [], sleeps := [], canceled := false }
  | attempt, fuel + 1 =>
    if webhookSuccess (world.results attempt) then
      { requests := [req], sleeps := [], canceled := false }
    else if fuel = 0 then
      { requests := [req], sleeps := [], canceled := false }
    else if world.canceledAt attempt then
      { requests := [req], sleeps := [], canceled := true }
    else
      let t := deliverLoop world req (attempt + 1) fuel
      { requests := req :: t.requests,
        sleeps := webhookRetryBase * 2 ^ (attempt - 1) :: t.sleeps,
        canceled := t.canceled }

/-- The JSON body bytes of the terminal webhook payload.  json.Marshal of
the record is outside this repository; the model keeps the body abstractly
determined by its three fields. -/
def terminalWebhookBody (runId : Nat) (status : RunStatus) (finishedAt : Int) :
    List Nat :=
  [runId % 256, (match status with
    | RunStatus.succeeded => 1
    | RunStatus.failed => 2
    | _ => 0), finishedAt.natAbs % 256]

/-- worker.deliverTerminalWebhook: trim the target URL and do nothing when it
is empty; marshal the payload; compute the signature; then run the bounded
retry loop. -/
def deliverTerminalWebhook (mac : String → List Nat → List Nat)
    (world : WebhookWorld) (runId : Nat) (status : RunStatus) (finishedAt : Int)
    (webhookUrl : String) (webhookSecret : String) : WebhookTrace :=
  let url := trimSpace webhookUrl
  if url = "" then { requests := [], sleeps := [], canceled := false }
  else
    let body := terminalWebhookBody runId status finishedAt
    let signature := signWebhookPayload mac webhookSecret body
    let req : WebhookRequest :=
      { url := url, contentType := "application/json",
        signature := if signature = "" then none else some signature,
        body := body }
    deliverLoop world req 1 webhookRetryAttempts

/-- One worker tick driving an always-failing executor (worker.ProcessOnce
with an executor whose Execute always returns an error): claim one step and
commit the failure; none when no step was claimable. -/
def processOnceAlwaysFail (w : WorkerCfg) (now : Int) (db : DB) : Option DB :=
  match claimOneStep w now db with
  | (Except.error _, _) => none
  | (Except.ok c, db1) => some (markStepFailed w now c.stepId "exec error" db1).2

/-- Tick the always-failing worker repeatedly, waiting long enough between
ticks for every retry deadline to pass, and count the executions. -/
def alwaysFailTicks (w : WorkerCfg) : Nat → Int → DB → Nat × DB
  | 0, _, db => (0, db)
  | fuel + 1, now, db =>
    match processOnceAlwaysFail w now db with
    | none => (0, db)
    | some db1 =>
      let p := alwaysFailTicks w fuel (now + 1000000000000) db1
      (p.1 + 1, p.2)

deriving instance DecidableEq for Except

/-! ## Observation predicates used by the verified properties -/

/-- Row-by-row comparison of the runs tables of two states: ids agree and no
run whose status was terminal has a different status afterwards. -/
def preservesTerminalRunStatuses (dbA dbB : DB) : Bool :=
  (dbA.runs.length = dbB.runs.length) &&
    (dbA.runs.zip dbB.runs).all (fun p =>
      p.1.id = p.2.id && (!isTerminalRun p.1.status || p.2.status = p.1.status))

/-- Row-by-row comparison of the runs tables of two states: ids agree and
every status change lands on the given target status. -/
def runStatusChangesConfinedTo (target : RunStatus) (dbA dbB : DB) : Bool :=
  (dbA.runs.length = dbB.runs.length) &&
    (dbA.runs.zip dbB.runs).all (fun p =>
      p.1.id = p.2.id && (p.2.status = p.1.status || p.2.status = target))

/-- Row-by-row comparison of the steps tables of two states: ids agree and
no step whose status was SUCCEEDED has a different status afterwards. -/
def preservesSucceededSteps (dbA dbB : DB) : Bool :=
  (dbA.steps.length = dbB.steps.length) &&
    (dbA.steps.zip dbB.steps).all (fun p =>
      p.1.id = p.2.id &&
        (!(p.1.status = StepStatus.succeeded) || p.2.status = StepStatus.succeeded))

/-! ## List helper lemmas -/

theorem all_zip_self {α} (l : List α) (p : α × α → Bool)
    (h : ∀ a ∈ l, p (a, a) = true) : (l.zip l).all p = true := by
  induction l with
  | nil => rfl
  | cons a as ih =>
    simp only [List.zip_cons_cons, List.all_cons, Bool.and_eq_true]
    exact ⟨h a (List.mem_cons_self a as), ih (fun b hb => h b (List.mem_cons_of_mem a hb))⟩

theorem all_zip_map {α β} (l : List α) (f : α → β) (p : α × β → Bool)
    (h : ∀ a ∈ l, p (a, f a) = true) : (l.zip (l.map f)).all p = true := by
  induction l with
  | nil => rfl
  | cons a as ih =>
    simp only [List.map_cons, List.zip_cons_cons, List.all_cons, Bool.and_eq_true]
    exact ⟨h a (List.mem_cons_self a as), ih (fun b hb => h b (List.mem_cons_of_mem a hb))⟩

theorem head_filter_mem {α} {l : List α} {p : α → Bool} {a : α}
    (h : (l.filter p).head? = some a) : a ∈ l ∧ p a = true := by
  have hmem : a ∈ l.filter p := List.mem_of_mem_head? (Option.mem_def.mpr h)
  exact ⟨(List.mem_filter.mp hmem).1, (List.mem_filter.mp hmem).2⟩

theorem head_filter_eq_none {α} {l : List α} {p : α → Bool}
    (h : ∀ a ∈ l, p a = false) : (l.filter p).head? = none := by
  have : l.filter p = [] := List.filter_eq_nil_iff.mpr (by
    intro a ha
    simp [h a ha])
  rw [this]; rfl

/-! ## C10: the worker concurrency gate -/

/-- Claim C10: whenever the count of the tenant's RUNNING steps has reached
the effective concurrency ceiling (the stored api-key ceiling, or the default
when the stored value is at most zero), claimOneStep returns the
none-available signal and leaves the state unchanged — the gate precedes
selection, so this holds regardless of the steps' claimed-at timestamps, and
a reclaimable stuck step is never reclaimed at the ceiling. -/
theorem C10_concurrency_gate (w : WorkerCfg) (now : Int) (db : DB) (key : ApiKeyRow)
    (hkey : findApiKey db w.apiKeyId = some key)
    (hcount : (runningStepsCount db w.apiKeyId : Int) ≥
      effectiveMaxConcurrentRuns key.maxConcurrentRuns) :
    claimOneStep w now db = (Except.error RepoError.noRows, db) := by
  unfold claimOneStep
  rw [hkey]
  simp only []
  rw [if_pos hcount]

def c10Key : ApiKeyRow := { id := 1, maxConcurrentRuns := 1 }

def c10Run : RunRow :=
  { id := 10, apiKeyId := 1, status := RunStatus.running, priority := 0,
    webhookUrl := "", webhookSecret := "", totalCostUsd := 0, updatedAt := 0 }

/-- A RUNNING step claimed long ago: past the reclaim window at the witness
instant, hence reclaimable by the selection predicate. -/
def c10StuckStep : StepRow :=
  { id := 20, runId := 10, name := StepName.llm, status := StepStatus.running,
    timeoutSeconds := none, nextRunAt := none, costUsd := 0, input := none,
    output := none, startedAt := some 0, finishedAt := none, attempts := 1,
    createdAt := 0 }

def c10Db : DB :=
  { apiKeys := [c10Key], runs := [c10Run], steps := [c10StuckStep],
    events := [], runRequests := [], templates := [], nextId := 100 }

def c10Cfg : WorkerCfg :=
  { apiKeyId := 1, reclaimAfter := 300000000000, maxAttempts := 3,
    retryBaseDelay := 2000000000, defaultStepTimeout := 30000000000 }

/-- Witness for C10 at a concrete state whose single RUNNING step is past
the reclaim window (it satisfies the selection predicate), yet the gate
returns none-available and changes nothing. -/
theorem C10_concurrency_gate_witness :
    findApiKey c10Db c10Cfg.apiKeyId = some c10Key ∧
    (runningStepsCount c10Db c10Cfg.apiKeyId : Int) ≥
      effectiveMaxConcurrentRuns c10Key.maxConcurrentRuns ∧
    stepEligible c10Cfg 10000000000000 c10Db c10StuckStep c10Run = true ∧
    claimOneStep c10Cfg 10000000000000 c10Db = (Except.error RepoError.noRows, c10Db) :=
  ⟨by decide, by decide, by decide,
    C10_concurrency_gate c10Cfg 10000000000000 c10Db c10Key (by decide) (by decide)⟩

/-! ## C7: tenant isolation -/

/-- Claim C7: every operation invoked with a tenant identity that owns no
run with the requested id — in particular with a tenant different from the
owner, and equally when no such run exists at all, which makes the two cases
indistinguishable — fails with the not-found kind (pgx.ErrNoRows) and leaves
the state unchanged. -/
theorem C7_tenant_isolation (db : DB) (caller runId afterSeq : Nat) (now : Int)
    (h : ∀ r ∈ db.runs, r.id = runId → r.apiKeyId ≠ caller) :
    GetRun caller runId db = (Except.error RepoError.noRows, db) ∧
    ListSteps caller runId db = (Except.error RepoError.noRows, db) ∧
    GetRunCost caller runId db = (Except.error RepoError.noRows, db) ∧
    CancelRun caller now runId db = (Except.error RepoError.noRows, db) ∧
    ApproveRun caller now runId db = (Except.error RepoError.noRows, db) ∧
    ListRunEventsGuarded caller runId afterSeq db =
      (Except.error RepoError.noRows, db) := by
  have hfind : findRunForApiKey db runId caller = none := by
    apply head_filter_eq_none
    intro r hr
    by_cases h1 : r.id = runId
    · have h2 := h r hr h1
      simp [h1, h2]
    · simp [h1]
  refine ⟨?_, ?_, ?_, ?_, ?_, ?_⟩ <;>
    simp [GetRun, ListSteps, GetRunCost, CancelRun, ApproveRun,
      ListRunEventsGuarded, hfind]

def c7Run : RunRow :=
  { id := 10, apiKeyId := 1, status := RunStatus.running, priority := 0,
    webhookUrl := "", webhookSecret := "", totalCostUsd := 0, updatedAt := 0 }

def c7Step : StepRow :=
  { id := 20, runId := 10, name := StepName.llm, status := StepStatus.pending,
    timeoutSeconds := none, nextRunAt := none, costUsd := 0, input := none,
    output := none, startedAt := none, finishedAt := none, attempts := 0,
    createdAt := 0 }

def c7Db : DB :=
  { apiKeys := [{ id := 1, maxConcurrentRuns := 5 }, { id := 2, maxConcurrentRuns := 5 }],
    runs := [c7Run], steps := [c7Step],
    events := [{ seq := 1, id := 1, runId := 10, stepId := some 20, type := "STEP_CLAIMED" }],
    runRequests := [], templates := [], nextId := 100 }

/-- Witness for C7: tenant 2 probing tenant 1's run sees not-found from every
operation and nothing changes. -/
theorem C7_tenant_isolation_witness :
    (∀ r ∈ c7Db.runs, r.id = 10 → r.apiKeyId ≠ 2) ∧
    GetRun 2 10 c7Db = (Except.error RepoError.noRows, c7Db) ∧
    CancelRun 2 0 10 c7Db = (Except.error RepoError.noRows, c7Db) :=
  ⟨by decide, (C7_tenant_isolation c7Db 2 10 0 0 (by decide)).1,
    (C7_tenant_isolation c7Db 2 10 0 0 (by decide)).2.2.2.1⟩

/-! ## Selection lemmas for the claim query (shared by several properties) -/

theorem betterPair_irrefl (p : StepRow × RunRow) : betterPair p p = false := by
  simp [betterPair]

theorem betterPair_chain_left {q p b : StepRow × RunRow}
    (h1 : betterPair q p = true) (h2 : betterPair q b = false) :
    betterPair p b = false := by
  simp only [betterPair, Bool.or_eq_true, Bool.and_eq_true, decide_eq_true_eq,
    Bool.or_eq_false_iff, Bool.and_eq_false_iff, decide_eq_false_iff_not] at h1 h2 ⊢
  rcases h1 with h1 | ⟨h1a, h1b⟩ <;> rcases h2 with ⟨h2a, h2b⟩ <;>
    constructor <;> first
      | omega
      | (rcases h2b with h | h
         · constructor
           intro hpb
           omega
         · right
           omega)
      | (rcases h2b with h | h
         · left
           omega
         · right
           omega)

theorem betterPair_chain_right {q p b : StepRow × RunRow}
    (h1 : betterPair q p = false) (h2 : betterPair p b = false) :
    betterPair q b = false := by
  simp only [betterPair, Bool.or_eq_true, Bool.and_eq_true, decide_eq_true_eq,
    Bool.or_eq_false_iff, Bool.and_eq_false_iff, decide_eq_false_iff_not] at h1 h2 ⊢
  rcases h1 with ⟨h1a, h1b⟩
  rcases h2 with ⟨h2a, h2b⟩
  constructor
  · omega
  · rcases h1b with h | h <;> rcases h2b with h9 | h9 <;> first
      | (left; omega)
      | (right; omega)
      | omega

theorem foldl_better_mem (ps : List (StepRow × RunRow)) : ∀ p : StepRow × RunRow,
    ps.foldl (fun acc q => if betterPair q acc then q else acc) p = p ∨
      ps.foldl (fun acc q => if betterPair q acc then q else acc) p ∈ ps := by
  induction ps with
  | nil =>
    intro p
    left
    rfl
  | cons q qs ih =>
    intro p
    simp only [List.foldl_cons]
    rcases ih (if betterPair q p then q else p) with h | h
    · rw [h]
      by_cases hb : betterPair q p = true
      · right
        rw [if_pos hb]
        exact List.mem_cons_self q qs
      · left
        rw [if_neg hb]
    · right
      exact List.mem_cons_of_mem q h

theorem foldl_better_best (ps : List (StepRow × RunRow)) :
    ∀ (p x : StepRow × RunRow), x = p ∨ x ∈ ps →
      betterPair x (ps.foldl (fun acc q => if betterPair q acc then q else acc) p)
        = false := by
  induction ps with
  | nil =>
    intro p x hx
    rcases hx with rfl | h
    · exact betterPair_irrefl x
    · cases h
  | cons q qs ih =>
    intro p x hx
    simp only [List.foldl_cons]
    by_cases hb : betterPair q p = true
    · rw [if_pos hb]
      rcases hx with heq | hx
      · rw [heq]
        exact betterPair_chain_left hb (ih q q (Or.inl rfl))
      · rcases List.mem_cons.mp hx with heq | hx
        · rw [heq]
          exact ih q q (Or.inl rfl)
        · exact ih q x (Or.inr hx)
    · rw [if_neg hb]
      have hbf : betterPair q p = false := Bool.eq_false_iff.mpr hb
      rcases hx with heq | hx
      · rw [heq]
        exact ih p p (Or.inl rfl)
      · rcases List.mem_cons.mp hx with heq | hx
        · rw [heq]
          exact betterPair_chain_right hbf (ih p p (Or.inl rfl))
        · exact ih p x (Or.inr hx)

theorem selectStep_spec {l : List (StepRow × RunRow)} {p : StepRow × RunRow}
    (h : selectStep l = some p) : p ∈ l ∧ ∀ q ∈ l, betterPair q p = false := by
  cases l with
  | nil => cases h
  | cons a as =>
    simp only [selectStep, Option.some.injEq] at h
    subst h
    constructor
    · rcases foldl_better_mem as a with h | h
      · rw [h]
        exact List.mem_cons_self a as
      · exact List.mem_cons_of_mem a h
    · intro q hq
      rcases List.mem_cons.mp hq with heq | hq
      · exact foldl_better_best as a q (Or.inl heq)
      · exact foldl_better_best as a q (Or.inr hq)

theorem mem_eligiblePairs {w : WorkerCfg} {now : Int} {db : DB} {st : StepRow}
    {r : RunRow} :
    (st, r) ∈ eligiblePairs w now db ↔
      st ∈ db.steps ∧ r ∈ db.runs ∧ r.id = st.runId ∧
        stepEligible w now db st r = true := by
  unfold eligiblePairs
  rw [List.mem_filter]
  simp only [List.mem_flatMap, List.mem_map, List.mem_filter, decide_eq_true_eq]
  constructor
  · rintro ⟨⟨st1, hst1, r1, ⟨hr1, hid1⟩, heq⟩, helig⟩
    rcases Prod.mk.injEq .. ▸ heq with ⟨rfl, rfl⟩
    exact ⟨hst1, hr1, hid1, helig⟩
  · rintro ⟨h1, h2, h3, h4⟩
    exact ⟨⟨st, h1, r, ⟨h2, h3⟩, rfl⟩, h4⟩

theorem stepEligible_status {w : WorkerCfg} {now : Int} {db : DB} {st : StepRow}
    {r : RunRow} (h : stepEligible w now db st r = true) :
    st.status = StepStatus.pending ∨ st.status = StepStatus.running := by
  unfold stepEligible at h
  simp only [Bool.and_eq_true, Bool.or_eq_true, decide_eq_true_eq] at h
  rcases h.1.1.1.1.1 with h | ⟨h, _⟩
  · exact Or.inl h
  · exact Or.inr h

/-! ## C1: terminal runs -/

theorem preservesTerminal_of_runs_eq (db db' : DB) (h : db'.runs = db.runs) :
    preservesTerminalRunStatuses db db' = true := by
  unfold preservesTerminalRunStatuses
  rw [h]
  simp only [Bool.and_eq_true, decide_eq_true_eq]
  exact ⟨trivial, all_zip_self _ _ (by intro a _; simp)⟩

theorem preservesTerminal_of_runs_map (db db' : DB) (f : RunRow → RunRow)
    (hruns : db'.runs = db.runs.map f)
    (h : ∀ r ∈ db.runs, (f r).id = r.id ∧
      (isTerminalRun r.status = true → (f r).status = r.status)) :
    preservesTerminalRunStatuses db db' = true := by
  unfold preservesTerminalRunStatuses
  rw [hruns]
  simp only [List.length_map, Bool.and_eq_true, decide_eq_true_eq]
  refine ⟨trivial, all_zip_map _ _ _ ?_⟩
  intro a ha
  rcases h a ha with ⟨h1, h2⟩
  cases ht : isTerminalRun a.status with
  | false => simp [h1, ht]
  | true => simp [h1, ht, h2 ht]

theorem confinedTo_of_runs_eq (target : RunStatus) (db db' : DB)
    (h : db'.runs = db.runs) : runStatusChangesConfinedTo target db db' = true := by
  unfold runStatusChangesConfinedTo
  rw [h]
  simp only [Bool.and_eq_true, decide_eq_true_eq]
  exact ⟨trivial, all_zip_self _ _ (by intro a _; simp)⟩

theorem confinedTo_of_runs_map (target : RunStatus) (db db' : DB) (f : RunRow → RunRow)
    (hruns : db'.runs = db.runs.map f)
    (h : ∀ r ∈ db.runs, (f r).id = r.id ∧
      ((f r).status = r.status ∨ (f r).status = target)) :
    runStatusChangesConfinedTo target db db' = true := by
  unfold runStatusChangesConfinedTo
  rw [hruns]
  simp only [List.length_map, Bool.and_eq_true, decide_eq_true_eq]
  refine ⟨trivial, all_zip_map _ _ _ ?_⟩
  intro a ha
  rcases h a ha with ⟨h1, h2⟩
  rcases h2 with h2 | h2 <;> simp [h1, h2]

theorem claimOneStep_preservesTerminal (w : WorkerCfg) (now : Int) (db : DB) :
    preservesTerminalRunStatuses db (claimOneStep w now db).2 = true := by
  unfold claimOneStep
  rcases hk : findApiKey db w.apiKeyId with _ | key
  · exact preservesTerminal_of_runs_eq db db rfl
  · simp only []
    split
    · exact preservesTerminal_of_runs_eq db db rfl
    · rcases hs : selectStep (eligiblePairs w now db) with _ | ⟨st, r⟩
      · exact preservesTerminal_of_runs_eq db db rfl
      · apply preservesTerminal_of_runs_map db _ (fun rr =>
          if rr.id = st.runId && rr.status = RunStatus.pending then
            { rr with status := RunStatus.running, updatedAt := now }
          else rr)
        · simp [insertEvent, updateStepById]
        · intro rr _
          by_cases hc : rr.id = st.runId ∧ rr.status = RunStatus.pending
          · refine ⟨by simp [hc.1, hc.2], ?_⟩
            intro ht
            rw [hc.2] at ht
            simp [isTerminalRun] at ht
          · have : (rr.id = st.runId && rr.status = RunStatus.pending) = false := by
              rcases Decidable.not_and_iff_or_not.mp hc with h1 | h1 <;> simp [h1]
            simp [this]

theorem cancelRun_preservesTerminal (caller runId : Nat) (now : Int) (db : DB)
    (hids : (db.runs.map RunRow.id).Nodup) :
    preservesTerminalRunStatuses db (CancelRun caller now runId db).2 = true := by
  unfold CancelRun
  rcases hf : findRunForApiKey db runId caller with _ | r
  · exact preservesTerminal_of_runs_eq db db rfl
  · have hr := head_filter_mem hf
    simp only [Bool.and_eq_true, decide_eq_true_eq] at hr
    simp only []
    split
    · exact preservesTerminal_of_runs_eq db db rfl
    · rename_i hterm
      apply preservesTerminal_of_runs_map db _ (fun rr =>
        if rr.id = runId then
          { rr with status := RunStatus.canceled, updatedAt := now }
        else rr)
      · simp [insertEvent, updateRunById]
      · intro rr hrr
        by_cases hc : rr.id = runId
        · have : rr = r := List.inj_on_of_nodup_map hids hrr hr.1
            (by rw [hc, hr.2.1])
          refine ⟨by simp [hc], ?_⟩
          intro ht
          rw [this] at ht
          exact absurd ht (by simpa using hterm)
        · simp [hc]

theorem approveRun_preservesTerminal (caller runId : Nat) (now : Int) (db : DB)
    (hids : (db.runs.map RunRow.id).Nodup) :
    preservesTerminalRunStatuses db (ApproveRun caller now runId db).2 = true := by
  unfold ApproveRun
  rcases hf : findRunForApiKey db runId caller with _ | r
  · exact preservesTerminal_of_runs_eq db db rfl
  · have hr := head_filter_mem hf
    simp only [Bool.and_eq_true, decide_eq_true_eq] at hr
    simp only []
    split
    · exact preservesTerminal_of_runs_eq db db rfl
    · rename_i hterm
      rcases ha : (db.steps.filter (fun s =>
        s.runId = runId && s.name = StepName.approval &&
          s.status = StepStatus.waitingApproval)).head? with _ | a
      · simp only [ha]
        exact preservesTerminal_of_runs_eq db _ rfl
      · simp only [ha]
        apply preservesTerminal_of_runs_map db _ (fun rr =>
          if rr.id = runId then
            { rr with
              status :=
                if ((insertEvent (insertEvent
                  { db with steps := db.steps.map (fun s =>
                    if s.runId = runId && s.name = StepName.approval &&
                        s.status = StepStatus.waitingApproval then
                      { s with status := StepStatus.succeeded,
                               startedAt := some (s.startedAt.getD now),
                               finishedAt := some (s.finishedAt.getD now) }
                    else s) } runId (some a.id) "STEP_APPROVED") runId none
                    "RUN_APPROVED").steps.filter (fun s =>
                      s.runId = runId && !(s.status = StepStatus.succeeded))).length = 0
                then RunStatus.succeeded else RunStatus.running,
              updatedAt := now }
          else rr)
        · simp [insertEvent, updateRunById]
        · intro rr hrr
          by_cases hc : rr.id = runId
          · have : rr = r := List.inj_on_of_nodup_map hids hrr hr.1
              (by rw [hc, hr.2.1])
            refine ⟨by simp [hc], ?_⟩
            intro ht
            rw [this] at ht
            exact absurd ht (by simpa using hterm)
          · simp [hc]

theorem markStepFailed_confined (w : WorkerCfg) (now : Int) (stepId : Nat)
    (errMsg : String) (db : DB) :
    runStatusChangesConfinedTo RunStatus.failed db
      (markStepFailed w now stepId errMsg db).2 = true := by
  unfold markStepFailed
  rcases hf : findStepById db stepId with _ | st
  · exact confinedTo_of_runs_eq _ db db rfl
  · simp only []
    split
    · exact confinedTo_of_runs_eq _ db _ (by simp [insertEvent, updateStepById])
    · apply confinedTo_of_runs_map _ db _ (fun r =>
        if r.id = st.runId && !(r.status = RunStatus.failed) then
          { r with status := RunStatus.failed, updatedAt := now }
        else r)
      · simp [insertEvent, updateStepById]
      · intro r _
        by_cases h1 : r.id = st.runId <;> by_cases h2 : r.status = RunStatus.failed <;>
          simp [h1, h2]

theorem runs_confined_cost_map (db db' : DB) (rid : Nat) (costUsd : Int)
    (h : db'.runs = db.runs.map (fun r =>
      if r.id = rid then { r with totalCostUsd := r.totalCostUsd + costUsd } else r)) :
    runStatusChangesConfinedTo RunStatus.succeeded db db' = true := by
  apply confinedTo_of_runs_map _ db db' _ h
  intro r _
  by_cases hc : r.id = rid <;> simp [hc]

theorem runs_confined_cost_succ_map (db db' : DB) (rid : Nat) (costUsd now : Int)
    (h : db'.runs = (db.runs.map (fun r =>
      if r.id = rid then { r with totalCostUsd := r.totalCostUsd + costUsd } else r)).map
      (fun r => if r.id = rid then
        { r with status := RunStatus.succeeded, updatedAt := now } else r)) :
    runStatusChangesConfinedTo RunStatus.succeeded db db' = true := by
  apply confinedTo_of_runs_map _ db db' (fun r =>
    (fun rr => if rr.id = rid then
      { rr with status := RunStatus.succeeded, updatedAt := now } else rr)
    ((fun rr => if rr.id = rid then
      { rr with totalCostUsd := rr.totalCostUsd + costUsd } else rr) r))
  · rw [h, List.map_map]
    rfl
  · intro r _
    by_cases hc : r.id = rid <;> simp [hc]

theorem markStepSucceeded_confined (now : Int) (c : ClaimedStep) (output : String)
    (costUsd : Int) (db : DB) :
    runStatusChangesConfinedTo RunStatus.succeeded db
      (markStepSucceeded now c output costUsd db).2 = true := by
  unfold markStepSucceeded
  dsimp only
  repeat' split
  all_goals
    first
    | (apply runs_confined_cost_succ_map db _ c.runId costUsd now
       simp only [insertEvent, updateRunById, updateStepById]
       done)
    | (apply runs_confined_cost_map db _ c.runId costUsd
       simp only [insertEvent, updateRunById, updateStepById]
       done)

/-- Claim C1 (amended): once a run's status is terminal, the claim, cancel
and approve operations never change it; the succeed commit changes run
statuses only to SUCCEEDED and the retry-or-fail commit changes run statuses
only to FAILED (so a run already FAILED is preserved by it) — but the
permanent-failure commit may move a run that is already CANCELED or SUCCEEDED
to FAILED, as its guard only excludes runs already FAILED. -/
theorem C1_terminal_runs_amended (w : WorkerCfg) (caller runId stepId : Nat)
    (now : Int) (errMsg output : String) (c : ClaimedStep) (costUsd : Int) (db : DB)
    (hids : (db.runs.map RunRow.id).Nodup) :
    preservesTerminalRunStatuses db (claimOneStep w now db).2 = true ∧
    preservesTerminalRunStatuses db (CancelRun caller now runId db).2 = true ∧
    preservesTerminalRunStatuses db (ApproveRun caller now runId db).2 = true ∧
    runStatusChangesConfinedTo RunStatus.failed db
      (markStepFailed w now stepId errMsg db).2 = true ∧
    runStatusChangesConfinedTo RunStatus.succeeded db
      (markStepSucceeded now c output costUsd db).2 = true :=
  ⟨claimOneStep_preservesTerminal w now db,
   cancelRun_preservesTerminal caller runId now db hids,
   approveRun_preservesTerminal caller runId now db hids,
   markStepFailed_confined w now stepId errMsg db,
   markStepSucceeded_confined now c output costUsd db⟩

def c1Cfg : WorkerCfg :=
  { apiKeyId := 1, reclaimAfter := 300000000000, maxAttempts := 3,
    retryBaseDelay := 2000000000, defaultStepTimeout := 30000000000 }

def c1Db : DB :=
  { apiKeys := [{ id := 1, maxConcurrentRuns := 5 }],
    runs := [{ id := 10, apiKeyId := 1, status := RunStatus.canceled, priority := 0,
               webhookUrl := "", webhookSecret := "", totalCostUsd := 0, updatedAt := 0 },
             { id := 11, apiKeyId := 1, status := RunStatus.running, priority := 0,
               webhookUrl := "", webhookSecret := "", totalCostUsd := 0, updatedAt := 0 }],
    steps := [{ id := 20, runId := 10, name := StepName.llm,
                status := StepStatus.canceled, timeoutSeconds := none,
                nextRunAt := none, costUsd := 0, input := none, output := none,
                startedAt := some 0, finishedAt := some 1, attempts := 3, createdAt := 0 },
              { id := 21, runId := 11, name := StepName.llm,
                status := StepStatus.pending, timeoutSeconds := none,
                nextRunAt := none, costUsd := 0, input := none, output := none,
                startedAt := none, finishedAt := none, attempts := 0, createdAt := 0 }],
    events := [], runRequests := [], templates := [], nextId := 100 }

def c1Claimed : ClaimedStep :=
  { stepId := 21, runId := 11, name := StepName.llm,
    status := StepStatus.pending, timeout := 30000000000 }

/-- Witness for the amended C1 at a concrete state holding one CANCELED and
one RUNNING run. -/
theorem C1_terminal_runs_amended_witness :
    (c1Db.runs.map RunRow.id).Nodup ∧
    (preservesTerminalRunStatuses c1Db (claimOneStep c1Cfg 5 c1Db).2 = true ∧
     preservesTerminalRunStatuses c1Db (CancelRun 1 5 10 c1Db).2 = true ∧
     preservesTerminalRunStatuses c1Db (ApproveRun 1 5 10 c1Db).2 = true ∧
     runStatusChangesConfinedTo RunStatus.failed c1Db
       (markStepFailed c1Cfg 5 20 "exec error" c1Db).2 = true ∧
     runStatusChangesConfinedTo RunStatus.succeeded c1Db
       (markStepSucceeded 5 c1Claimed "ok" 2 c1Db).2 = true) :=
  ⟨by decide,
   C1_terminal_runs_amended c1Cfg 1 10 20 5 "exec error" "ok" c1Claimed 2 c1Db (by decide)⟩

/-- Counterexample to C1 as stated: the permanent-failure commit on a step
whose attempts have reached the maximum moves its owning run from the
terminal status CANCELED to FAILED, because the conditional update only
excludes runs already FAILED. -/
theorem C1_counterexample :
    (findRunById c1Db 10).map RunRow.status = some RunStatus.canceled ∧
    isTerminalRun RunStatus.canceled = true ∧
    (markStepFailed c1Cfg 5 20 "exec error" c1Db).1 = Except.ok () ∧
    (findRunById (markStepFailed c1Cfg 5 20 "exec error" c1Db).2 10).map RunRow.status =
      some RunStatus.failed := by decide

/-! ## C4: SUCCEEDED steps -/

theorem preservesSucceeded_of_steps_eq (db db' : DB) (h : db'.steps = db.steps) :
    preservesSucceededSteps db db' = true := by
  unfold preservesSucceededSteps
  rw [h]
  simp only [Bool.and_eq_true, decide_eq_true_eq]
  exact ⟨trivial, all_zip_self _ _ (by intro a _; simp)⟩

theorem preservesSucceeded_of_steps_map (db db' : DB) (f : StepRow → StepRow)
    (hsteps : db'.steps = db.steps.map f)
    (h : ∀ s ∈ db.steps, (f s).id = s.id ∧
      (s.status = StepStatus.succeeded → (f s).status = StepStatus.succeeded)) :
    preservesSucceededSteps db db' = true := by
  unfold preservesSucceededSteps
  rw [hsteps]
  simp only [List.length_map, Bool.and_eq_true, decide_eq_true_eq]
  refine ⟨trivial, all_zip_map _ _ _ ?_⟩
  intro a ha
  rcases h a ha with ⟨h1, h2⟩
  by_cases hs : a.status = StepStatus.succeeded
  · simp [h1, hs, h2 hs]
  · simp [h1, hs]

theorem cancelRun_preservesSucceeded (caller runId : Nat) (now : Int) (db : DB) :
    preservesSucceededSteps db (CancelRun caller now runId db).2 = true := by
  unfold CancelRun
  rcases hf : findRunForApiKey db runId caller with _ | r
  · exact preservesSucceeded_of_steps_eq db db rfl
  · simp only []
    split
    · exact preservesSucceeded_of_steps_eq db db rfl
    · apply preservesSucceeded_of_steps_map db _ (fun s =>
        if s.runId = runId &&
            (s.status = StepStatus.pending || s.status = StepStatus.running ||
              s.status = StepStatus.waitingApproval) then
          { s with status := StepStatus.canceled,
                   finishedAt := some (s.finishedAt.getD now) }
        else s)
      · simp [insertEvent, updateRunById]
      · intro s _
        refine ⟨by split <;> rfl, ?_⟩
        intro h2
        rw [if_neg (by simp [h2])]
        exact h2

theorem approveRun_preservesSucceeded (caller runId : Nat) (now : Int) (db : DB) :
    preservesSucceededSteps db (ApproveRun caller now runId db).2 = true := by
  unfold ApproveRun
  rcases hf : findRunForApiKey db runId caller with _ | r
  · exact preservesSucceeded_of_steps_eq db db rfl
  · simp only []
    split
    · exact preservesSucceeded_of_steps_eq db db rfl
    · have key : ∀ (dbx : DB), dbx.steps = db.steps.map (fun s =>
        if s.runId = runId && s.name = StepName.approval &&
            s.status = StepStatus.waitingApproval then
          { s with status := StepStatus.succeeded,
                   startedAt := some (s.startedAt.getD now),
                   finishedAt := some (s.finishedAt.getD now) }
        else s) → preservesSucceededSteps db dbx = true := by
        intro dbx hx
        apply preservesSucceeded_of_steps_map db _ _ hx
        intro s _
        refine ⟨by split <;> rfl, ?_⟩
        intro h2
        by_cases h1 : (s.runId = runId && s.name = StepName.approval &&
            s.status = StepStatus.waitingApproval) = true
        · rw [if_pos h1]
        · rw [if_neg h1]
          exact h2
      split
      · exact key _ (by simp [insertEvent, updateRunById])
      · exact key _ (by simp [insertEvent, updateRunById])

theorem markStepSucceeded_preservesSucceeded (now : Int) (c : ClaimedStep)
    (output : String) (costUsd : Int) (db : DB) :
    preservesSucceededSteps db (markStepSucceeded now c output costUsd db).2 = true := by
  unfold markStepSucceeded
  dsimp only
  have key1 : ∀ (dbx : DB), dbx.steps = (db.steps.map (fun s =>
      if s.id = c.stepId then
        { s with status := StepStatus.succeeded, output := some output,
                 costUsd := costUsd, nextRunAt := none, finishedAt := some now }
      else s)).map (fun s =>
        if s.runId = c.runId && s.name = StepName.approval &&
            s.status = StepStatus.pending then
          { s with status := StepStatus.waitingApproval }
        else s) → preservesSucceededSteps db dbx = true := by
    intro dbx hx
    rw [List.map_map] at hx
    apply preservesSucceeded_of_steps_map db _ _ hx
    intro s _
    constructor
    · simp only [Function.comp]
      repeat' split
      all_goals rfl
    · intro h2
      simp only [Function.comp]
      by_cases h1 : s.id = c.stepId <;> simp [h1, h2]
  have key2 : ∀ (dbx : DB), dbx.steps = db.steps.map (fun s =>
      if s.id = c.stepId then
        { s with status := StepStatus.succeeded, output := some output,
                 costUsd := costUsd, nextRunAt := none, finishedAt := some now }
      else s) → preservesSucceededSteps db dbx = true := by
    intro dbx hx
    apply preservesSucceeded_of_steps_map db _ _ hx
    intro s _
    refine ⟨by split <;> rfl, ?_⟩
    intro h2
    by_cases h1 : s.id = c.stepId <;> simp [h1, h2]
  repeat' split
  all_goals
    first
    | (apply key1
       simp only [insertEvent, updateRunById, updateStepById]
       done)
    | (apply key2
       simp only [insertEvent, updateRunById, updateStepById]
       done)

theorem claimOneStep_preservesSucceeded (w : WorkerCfg) (now : Int) (db : DB)
    (hids : (db.steps.map StepRow.id).Nodup) :
    preservesSucceededSteps db (claimOneStep w now db).2 = true := by
  unfold claimOneStep
  rcases hk : findApiKey db w.apiKeyId with _ | key
  · exact preservesSucceeded_of_steps_eq db db rfl
  · simp only []
    split
    · exact preservesSucceeded_of_steps_eq db db rfl
    · rcases hs : selectStep (eligiblePairs w now db) with _ | ⟨st, r⟩
      · exact preservesSucceeded_of_steps_eq db db rfl
      · have hmem := (mem_eligiblePairs.mp (selectStep_spec hs).1)
        have hstat := stepEligible_status hmem.2.2.2
        apply preservesSucceeded_of_steps_map db _ (fun s =>
          if s.id = st.id then
            { s with status := StepStatus.running,
                     startedAt := some (s.startedAt.getD now),
                     input := some "claim snapshot",
                     nextRunAt := none,
                     attempts := s.attempts + 1 }
          else s)
        · simp [insertEvent, updateStepById]
        · intro s hsmem
          refine ⟨by split <;> rfl, ?_⟩
          intro hsucc
          by_cases h1 : s.id = st.id
          · have heq : s = st := List.inj_on_of_nodup_map hids hsmem hmem.1 h1
            rw [heq] at hsucc
            rcases hstat with h | h <;> rw [h] at hsucc <;> cases hsucc
          · rw [if_neg (by simp [h1])]
            exact hsucc

/-- Claim C4 (amended): a SUCCEEDED step's status is never changed by the
claim operation, by cancel, by approve, or by the succeed commit; the
retry-or-fail commit, however, updates the step row unconditionally, so
applied to an identifier whose step is already SUCCEEDED it does overwrite
the status with PENDING or FAILED. -/
theorem C4_succeeded_steps_amended (w : WorkerCfg) (caller runId : Nat)
    (now : Int) (output : String) (c : ClaimedStep) (costUsd : Int) (db : DB)
    (hids : (db.steps.map StepRow.id).Nodup) :
    preservesSucceededSteps db (claimOneStep w now db).2 = true ∧
    preservesSucceededSteps db (CancelRun caller now runId db).2 = true ∧
    preservesSucceededSteps db (ApproveRun caller now runId db).2 = true ∧
    preservesSucceededSteps db (markStepSucceeded now c output costUsd db).2 = true :=
  ⟨claimOneStep_preservesSucceeded w now db hids,
   cancelRun_preservesSucceeded caller runId now db,
   approveRun_preservesSucceeded caller runId now db,
   markStepSucceeded_preservesSucceeded now c output costUsd db⟩

def c4Cfg : WorkerCfg :=
  { apiKeyId := 1, reclaimAfter := 300000000000, maxAttempts := 3,
    retryBaseDelay := 2000000000, defaultStepTimeout := 30000000000 }

def c4Db : DB :=
  { apiKeys := [{ id := 1, maxConcurrentRuns := 5 }],
    runs := [{ id := 10, apiKeyId := 1, status := RunStatus.running, priority := 0,
               webhookUrl := "", webhookSecret := "", totalCostUsd := 0, updatedAt := 0 }],
    steps := [{ id := 20, runId := 10, name := StepName.llm,
                status := StepStatus.succeeded, timeoutSeconds := none,
                nextRunAt := none, costUsd := 0, input := none, output := none,
                startedAt := some 0, finishedAt := some 1, attempts := 3, createdAt := 0 },
              { id := 21, runId := 10, name := StepName.tool,
                status := StepStatus.pending, timeoutSeconds := none,
                nextRunAt := none, costUsd := 0, input := none, output := none,
                startedAt := none, finishedAt := none, attempts := 0, createdAt := 1 }],
    events := [], runRequests := [], templates := [], nextId := 100 }

def c4Claimed : ClaimedStep :=
  { stepId := 21, runId := 10, name := StepName.tool,
    status := StepStatus.pending, timeout := 30000000000 }

/-- Witness for the amended C4 at a concrete state holding one SUCCEEDED
step. -/
theorem C4_succeeded_steps_amended_witness :
    (c4Db.steps.map StepRow.id).Nodup ∧
    (preservesSucceededSteps c4Db (claimOneStep c4Cfg 5 c4Db).2 = true ∧
     preservesSucceededSteps c4Db (CancelRun 1 5 10 c4Db).2 = true ∧
     preservesSucceededSteps c4Db (ApproveRun 1 5 10 c4Db).2 = true ∧
     preservesSucceededSteps c4Db (markStepSucceeded 5 c4Claimed "ok" 2 c4Db).2 = true) :=
  ⟨by decide, C4_succeeded_steps_amended c4Cfg 1 10 5 "ok" c4Claimed 2 c4Db (by decide)⟩

/-- Counterexample to C4 as stated: the retry-or-fail commit applied to the
identifier of a step that is already SUCCEEDED overwrites its status — here
attempts have reached the maximum, so the SUCCEEDED step becomes FAILED. -/
theorem C4_counterexample :
    (findStepById c4Db 20).map StepRow.status = some StepStatus.succeeded ∧
    (markStepFailed c4Cfg 5 20 "exec error" c4Db).1 = Except.ok () ∧
    (findStepById (markStepFailed c4Cfg 5 20 "exec error" c4Db).2 20).map
      StepRow.status = some StepStatus.failed := by decide

/-! ## C2: the claim selection predicate and ordering -/

theorem stepEligible_props {w : WorkerCfg} {now : Int} {db : DB} {st : StepRow}
    {r : RunRow} (h : stepEligible w now db st r = true) :
    (st.status = StepStatus.pending ∨
      (st.status = StepStatus.running ∧
        ∃ t, st.startedAt = some t ∧ t < now - w.reclaimAfter)) ∧
    (st.nextRunAt = none ∨ ∃ t, st.nextRunAt = some t ∧ t ≤ now) ∧
    st.name ≠ StepName.approval ∧
    r.status ≠ RunStatus.canceled ∧ r.status ≠ RunStatus.failed ∧
    r.status ≠ RunStatus.succeeded ∧
    r.apiKeyId = w.apiKeyId ∧
    (∀ s2 ∈ db.steps, s2.runId = st.runId → s2.createdAt < st.createdAt →
      s2.status = StepStatus.succeeded) := by
  unfold stepEligible at h
  simp only [Bool.and_eq_true, Bool.or_eq_true, decide_eq_true_eq,
    Bool.not_eq_true', Bool.or_eq_false_iff, decide_eq_false_iff_not,
    List.all_eq_true] at h
  obtain ⟨⟨⟨⟨⟨hA, hB⟩, hC⟩, hD⟩, hE⟩, hF⟩ := h
  refine ⟨?_, ?_, hC, hD.1.1, hD.1.2, hD.2, hE, ?_⟩
  · rcases hA with hA | ⟨h1, h2⟩
    · exact Or.inl hA
    · cases hsa : st.startedAt with
      | none => rw [hsa] at h2; cases h2
      | some t =>
        rw [hsa] at h2
        exact Or.inr ⟨h1, t, rfl, of_decide_eq_true h2⟩
  · cases hna : st.nextRunAt with
    | none => exact Or.inl rfl
    | some t =>
      rw [hna] at hB
      exact Or.inr ⟨t, rfl, of_decide_eq_true hB⟩
  · intro s2 h2 hrun hca
    have h3 := hF s2 h2
    simp [hrun, hca] at h3
    exact h3

/-- Claim C2: whenever claimOneStep returns a claim descriptor, the selected
step satisfies every condition of the selection predicate — status PENDING or
reclaimable RUNNING (non-null claimed-at older than now minus the reclaim
window), name not APPROVAL, retry deadline null or not after now, owning run
not terminal and owned by the worker's tenant, and every earlier step of the
run SUCCEEDED — and it is optimal for the claim ordering: no eligible step
has a higher owning-run priority, and within the same priority none was
created earlier. -/
theorem C2_claim_selection (w : WorkerCfg) (now : Int) (db : DB) (c : ClaimedStep)
    (h : (claimOneStep w now db).1 = Except.ok c) :
    ∃ st r, st ∈ db.steps ∧ r ∈ db.runs ∧
      c.stepId = st.id ∧ c.runId = st.runId ∧ r.id = st.runId ∧
      (st.status = StepStatus.pending ∨
        (st.status = StepStatus.running ∧
          ∃ t, st.startedAt = some t ∧ t < now - w.reclaimAfter)) ∧
      st.name ≠ StepName.approval ∧
      (st.nextRunAt = none ∨ ∃ t, st.nextRunAt = some t ∧ t ≤ now) ∧
      r.status ≠ RunStatus.canceled ∧ r.status ≠ RunStatus.failed ∧
      r.status ≠ RunStatus.succeeded ∧
      r.apiKeyId = w.apiKeyId ∧
      (∀ s2 ∈ db.steps, s2.runId = st.runId → s2.createdAt < st.createdAt →
        s2.status = StepStatus.succeeded) ∧
      (∀ st2 r2, st2 ∈ db.steps → r2 ∈ db.runs → r2.id = st2.runId →
        stepEligible w now db st2 r2 = true →
        r2.priority ≤ r.priority ∧
          (r2.priority = r.priority → st.createdAt ≤ st2.createdAt)) := by
  unfold claimOneStep at h
  rcases hk : findApiKey db w.apiKeyId with _ | key <;> rw [hk] at h
  · cases h
  · dsimp only at h
    by_cases hg : (runningStepsCount db w.apiKeyId : Int) ≥
        effectiveMaxConcurrentRuns key.maxConcurrentRuns
    · rw [if_pos hg] at h
      cases h
    · rw [if_neg hg] at h
      rcases hs : selectStep (eligiblePairs w now db) with _ | ⟨st, r⟩ <;> rw [hs] at h
      · cases h
      · simp only [Except.ok.injEq] at h
        subst h
        obtain ⟨hmem, hbest⟩ := selectStep_spec hs
        obtain ⟨hst, hr, hrid, helig⟩ := mem_eligiblePairs.mp hmem
        obtain ⟨p1, p2, p3, p4, p5, p6, p7, p8⟩ := stepEligible_props helig
        refine ⟨st, r, hst, hr, rfl, rfl, hrid, p1, p3, p2, p4, p5, p6, p7, p8, ?_⟩
        intro st2 r2 h1 h2 h3 h4
        have hb := hbest (st2, r2) (mem_eligiblePairs.mpr ⟨h1, h2, h3, h4⟩)
        simp only [betterPair, Bool.or_eq_false_iff, Bool.and_eq_false_iff,
          decide_eq_false_iff_not] at hb
        rcases hb with ⟨hb1, hb2⟩
        constructor
        · omega
        · intro hpp
          rcases hb2 with h9 | h9
          · exact absurd hpp h9
          · omega

def c2Cfg : WorkerCfg :=
  { apiKeyId := 1, reclaimAfter := 300000000000, maxAttempts := 3,
    retryBaseDelay := 2000000000, defaultStepTimeout := 30000000000 }

def c2Db : DB :=
  { apiKeys := [{ id := 1, maxConcurrentRuns := 5 }],
    runs := [{ id := 10, apiKeyId := 1, status := RunStatus.pending, priority := 0,
               webhookUrl := "", webhookSecret := "", totalCostUsd := 0, updatedAt := 0 },
             { id := 11, apiKeyId := 1, status := RunStatus.pending, priority := 10,
               webhookUrl := "", webhookSecret := "", totalCostUsd := 0, updatedAt := 0 }],
    steps := [{ id := 20, runId := 10, name := StepName.llm,
                status := StepStatus.pending, timeoutSeconds := none,
                nextRunAt := none, costUsd := 0, input := none, output := none,
                startedAt := none, finishedAt := none, attempts := 0, createdAt := 0 },
              { id := 21, runId := 11, name := StepName.llm,
                status := StepStatus.pending, timeoutSeconds := none,
                nextRunAt := none, costUsd := 0, input := none, output := none,
                startedAt := none, finishedAt := none, attempts := 0, createdAt := 5 }],
    events := [], runRequests := [], templates := [], nextId := 100 }

/-- Witness for C2: with two PENDING runs of priorities 0 and 10, the claim
selects the priority-10 run's step even though the other step was created
earlier. -/
theorem C2_claim_selection_witness :
    (claimOneStep c2Cfg 50 c2Db).1 = Except.ok
      { stepId := 21, runId := 11, name := StepName.llm,
        status := StepStatus.pending, timeout := 30000000000 } ∧
    (∃ st r, st ∈ c2Db.steps ∧ r ∈ c2Db.runs ∧
      (21 : Nat) = st.id ∧ (11 : Nat) = st.runId ∧ r.id = st.runId ∧
      (st.status = StepStatus.pending ∨
        (st.status = StepStatus.running ∧
          ∃ t, st.startedAt = some t ∧ t < 50 - c2Cfg.reclaimAfter)) ∧
      st.name ≠ StepName.approval ∧
      (st.nextRunAt = none ∨ ∃ t, st.nextRunAt = some t ∧ t ≤ 50) ∧
      r.status ≠ RunStatus.canceled ∧ r.status ≠ RunStatus.failed ∧
      r.status ≠ RunStatus.succeeded ∧
      r.apiKeyId = c2Cfg.apiKeyId ∧
      (∀ s2 ∈ c2Db.steps, s2.runId = st.runId → s2.createdAt < st.createdAt →
        s2.status = StepStatus.succeeded) ∧
      (∀ st2 r2, st2 ∈ c2Db.steps → r2 ∈ c2Db.runs → r2.id = st2.runId →
        stepEligible c2Cfg 50 c2Db st2 r2 = true →
        r2.priority ≤ r.priority ∧
          (r2.priority = r.priority → st.createdAt ≤ st2.createdAt))) :=
  ⟨by decide, C2_claim_selection c2Cfg 50 c2Db
    { stepId := 21, runId := 11, name := StepName.llm,
      status := StepStatus.pending, timeout := 30000000000 } (by decide)⟩

/-! ## C3: retry-or-fail and the saturating backoff -/

theorem findStepById_updateStepById (db : DB) (i : Nat) (g : StepRow → StepRow)
    (hg : ∀ s, (g s).id = s.id) :
    findStepById (updateStepById db i g) i =
      (findStepById db i).map (fun s => if s.id = i then g s else s) := by
  unfold findStepById updateStepById
  dsimp only
  rw [List.filter_map, List.head?_map]
  congr 2
  apply List.filter_congr
  intro s _
  by_cases hsi : s.id = i
  · simp [hsi, hg]
  · simp [hsi]

theorem maxDuration_div_two : maxDuration / 2 = 2 ^ 62 - 1 := by decide

theorem backoffDouble_spec (n : Nat) : ∀ d : Int, 0 < d → d ≤ maxDuration →
    backoffDouble d n =
      if d * 2 ^ n ≤ maxDuration - 1 then d * 2 ^ n else maxDuration := by
  induction n with
  | zero =>
    intro d hd hmax
    simp only [backoffDouble, pow_zero, mul_one]
    by_cases hle : d ≤ maxDuration - 1
    · rw [if_pos hle]
    · rw [if_neg hle]
      omega
  | succ n ih =>
    intro d hd hmax
    have h2n : (1 : Int) ≤ 2 ^ n := one_le_pow₀ (by norm_num)
    have hpow : d * 2 ^ (n + 1) = d * 2 * 2 ^ n := by ring
    simp only [backoffDouble]
    by_cases hgt : d > maxDuration / 2
    · rw [if_pos hgt]
      rw [maxDuration_div_two] at hgt
      have hbig : ¬ d * 2 ^ (n + 1) ≤ maxDuration - 1 := by
        rw [hpow]
        have : (2 ^ 62 : Int) * 2 * 1 ≤ d * 2 * 2 ^ n := by
          apply mul_le_mul (by omega) h2n (by norm_num) (by omega)
        simp only [maxDuration] at *
        omega
      rw [if_neg hbig]
    · rw [if_neg hgt]
      rw [maxDuration_div_two] at hgt
      rw [ih (d * 2) (by omega) (by simp only [maxDuration] at *; omega)]
      have : d * 2 * 2 ^ n = d * 2 ^ (n + 1) := by ring
      rw [this]

theorem backoffDelay_spec (base a : Int) (hbase : 0 < base)
    (hbmax : base ≤ maxDuration) (ha : 0 < a) :
    backoffDelay base a =
      if base * 2 ^ a.toNat ≤ maxDuration - 1 then base * 2 ^ a.toNat
      else maxDuration := by
  unfold backoffDelay
  rw [if_neg (by omega), if_neg (by omega)]
  exact backoffDouble_spec a.toNat base hbase hbmax

def c3Cfg : WorkerCfg :=
  { apiKeyId := 1, reclaimAfter := 300000000000, maxAttempts := 3,
    retryBaseDelay := 2000000000, defaultStepTimeout := 30000000000 }

def c3Db : DB :=
  { apiKeys := [{ id := 1, maxConcurrentRuns := 5 }],
    runs := [{ id := 10, apiKeyId := 1, status := RunStatus.pending, priority := 0,
               webhookUrl := "", webhookSecret := "", totalCostUsd := 0, updatedAt := 0 }],
    steps := [{ id := 20, runId := 10, name := StepName.llm,
                status := StepStatus.pending, timeoutSeconds := none,
                nextRunAt := none, costUsd := 0, input := none, output := none,
                startedAt := none, finishedAt := none, attempts := 0, createdAt := 0 }],
    events := [], runRequests := [], templates := [], nextId := 100 }

/-- Claim C3: on execution failure the retry-or-fail commit reads the attempt
counter a (already incremented by the claim); if a is below the configured
maximum the step returns to PENDING with retry deadline now + base·2^a, where
the backoff saturates at the largest finite duration (2^63 − 1 ns) instead of
overflowing; otherwise the step becomes FAILED with a null retry deadline.
With max_attempts = 3, an always-failing step is executed exactly three times
before failing permanently. -/
theorem C3_retry_or_fail (w : WorkerCfg) (now : Int) (stepId : Nat)
    (errMsg : String) (db : DB) (st : StepRow) (base a : Int)
    (hf : findStepById db stepId = some st)
    (hbase : 0 < base) (hbmax : base ≤ maxDuration) (ha : 0 < a) :
    ((st.attempts < w.maxAttempts →
        (markStepFailed w now stepId errMsg db).1 = Except.ok () ∧
        findStepById (markStepFailed w now stepId errMsg db).2 stepId =
          some { st with status := StepStatus.pending, output := some errMsg,
                         nextRunAt :=
                           some (now + backoffDelay w.retryBaseDelay st.attempts),
                         finishedAt := some now }) ∧
      (¬ st.attempts < w.maxAttempts →
        (markStepFailed w now stepId errMsg db).1 = Except.ok () ∧
        findStepById (markStepFailed w now stepId errMsg db).2 stepId =
          some { st with status := StepStatus.failed, output := some errMsg,
                         nextRunAt := none, finishedAt := some now })) ∧
    backoffDelay base a =
      (if base * 2 ^ a.toNat ≤ maxDuration - 1 then base * 2 ^ a.toNat
       else maxDuration) ∧
    ((alwaysFailTicks c3Cfg 10 0 c3Db).1 = 3 ∧
      (findStepById (alwaysFailTicks c3Cfg 10 0 c3Db).2 20).map StepRow.status =
        some StepStatus.failed ∧
      c3Cfg.maxAttempts = 3) := by
  have hid : st.id = stepId := by
    have := head_filter_mem hf
    simpa using this.2
  refine ⟨⟨?_, ?_⟩, backoffDelay_spec base a hbase hbmax ha, by decide, by decide,
    by decide⟩
  · intro hlt
    unfold markStepFailed
    rw [hf]
    dsimp only
    rw [if_pos hlt]
    refine ⟨rfl, ?_⟩
    show findStepById (updateStepById db stepId (fun s =>
      { s with status := StepStatus.pending, output := some errMsg,
               nextRunAt := some (now + backoffDelay w.retryBaseDelay st.attempts),
               finishedAt := some now })) stepId = _
    rw [findStepById_updateStepById db stepId (fun s =>
      { s with status := StepStatus.pending, output := some errMsg,
               nextRunAt := some (now + backoffDelay w.retryBaseDelay st.attempts),
               finishedAt := some now }) (fun s => rfl), hf]
    simp [hid]
  · intro hlt
    unfold markStepFailed
    rw [hf]
    dsimp only
    rw [if_neg hlt]
    refine ⟨rfl, ?_⟩
    show findStepById (updateStepById db stepId (fun s =>
      { s with status := StepStatus.failed, output := some errMsg,
               nextRunAt := none, finishedAt := some now })) stepId = _
    rw [findStepById_updateStepById db stepId (fun s =>
      { s with status := StepStatus.failed, output := some errMsg,
               nextRunAt := none, finishedAt := some now }) (fun s => rfl), hf]
    simp [hid]

/-- Witness for C3: a freshly claimed step (attempt counter 1 after the
claim's increment) is retried with deadline now + 2 s · 2. -/
theorem C3_retry_or_fail_witness :
    findStepById (claimOneStep c3Cfg 0 c3Db).2 20 = some
      { id := 20, runId := 10, name := StepName.llm,
        status := StepStatus.running, timeoutSeconds := none,
        nextRunAt := none, costUsd := 0, input := some "claim snapshot",
        output := none, startedAt := some 0, finishedAt := none,
        attempts := 1, createdAt := 0 } ∧
    (0 : Int) < 2000000000 ∧ (2000000000 : Int) ≤ maxDuration ∧ (0 : Int) < 1 ∧
    (1 : Int) < c3Cfg.maxAttempts ∧
    findStepById
        (markStepFailed c3Cfg 7 20 "exec error" (claimOneStep c3Cfg 0 c3Db).2).2 20 =
      some { id := 20, runId := 10, name := StepName.llm,
             status := StepStatus.pending, timeoutSeconds := none,
             nextRunAt := some (7 + backoffDelay 2000000000 1), costUsd := 0,
             input := some "claim snapshot", output := some "exec error",
             startedAt := some 0, finishedAt := some 7,
             attempts := 1, createdAt := 0 } :=
  ⟨by decide, by decide, by decide, by decide, by decide,
   ((C3_retry_or_fail c3Cfg 7 20 "exec error" (claimOneStep c3Cfg 0 c3Db).2
      { id := 20, runId := 10, name := StepName.llm,
        status := StepStatus.running, timeoutSeconds := none,
        nextRunAt := none, costUsd := 0, input := some "claim snapshot",
        output := none, startedAt := some 0, finishedAt := none,
        attempts := 1, createdAt := 0 } 2000000000 1
      (by decide) (by decide) (by decide) (by decide)).1.1 (by decide)).2⟩

/-! ## C6: the concurrent-run admission gate of create -/

/-- Claim C6 (amended): for create-run calls whose idempotency lookup does
not find a prior bound run — in particular every call without an idempotency
key — the call fails with the limit-exceeded error exactly when the count of
the tenant's RUNNING or WAITING_APPROVAL runs has reached the effective
ceiling (the stored value, or the default when the stored value is at most
zero), and on that failure nothing is created.  A call whose key is already
bound returns the prior run without consulting the gate at all, which is why
the lookup-miss qualification is needed. -/
theorem C6_concurrent_limit_amended (caller : Nat) (now : Int)
    (params : CreateRunParams) (idempotencyKey : Option String)
    (race : Option RunRequestRow) (db : DB) (key : ApiKeyRow)
    (hkey : findApiKey db caller = some key)
    (hmiss : ∀ k, idempotencyKey = some k → findRunRequest db caller k = none) :
    ((CreateRun caller now params idempotencyKey race db).1 =
        Except.error RepoError.limitExceeded ↔
      (activeRunsCount db caller : Int) ≥
        effectiveMaxConcurrentRuns key.maxConcurrentRuns) ∧
    ((activeRunsCount db caller : Int) ≥
        effectiveMaxConcurrentRuns key.maxConcurrentRuns →
      (CreateRun caller now params idempotencyKey race db).2 = db) := by
  rcases idempotencyKey with _ | k
  · unfold CreateRun
    dsimp only
    rw [hkey]
    dsimp only
    by_cases hg : (activeRunsCount db caller : Int) ≥
        effectiveMaxConcurrentRuns key.maxConcurrentRuns
    · rw [if_pos hg]
      exact ⟨by simp [hg], fun _ => rfl⟩
    · rw [if_neg hg]
      refine ⟨⟨?_, fun h => absurd h hg⟩, fun h => absurd h hg⟩
      rcases hload : loadWorkflowTemplateSteps db (resolvedTemplateName params)
        with _ | ts <;> simp [hload]
  · have hm := hmiss k rfl
    unfold CreateRun
    dsimp only
    rw [hm, hkey]
    dsimp only
    by_cases hg : (activeRunsCount db caller : Int) ≥
        effectiveMaxConcurrentRuns key.maxConcurrentRuns
    · rw [if_pos hg]
      exact ⟨by simp [hg], fun _ => rfl⟩
    · rw [if_neg hg]
      refine ⟨⟨?_, fun h => absurd h hg⟩, fun h => absurd h hg⟩
      rcases hload : loadWorkflowTemplateSteps db (resolvedTemplateName params)
        with _ | ts
      · simp [hload]
      · simp only [hload]
        split <;> simp

def c6Db : DB :=
  { apiKeys := [{ id := 1, maxConcurrentRuns := 1 }],
    runs := [{ id := 10, apiKeyId := 1, status := RunStatus.running, priority := 0,
               webhookUrl := "", webhookSecret := "", totalCostUsd := 0, updatedAt := 0 }],
    steps := [], events := [],
    runRequests := [{ id := 50, apiKeyId := 1, idempotencyKey := "k", runId := 10 }],
    templates := [], nextId := 100 }

/-- Counterexample to C6 as stated: the tenant is at its ceiling (one RUNNING
run, ceiling 1), yet a create-run call whose idempotency key is already bound
returns the prior run successfully instead of failing with limit-exceeded —
the admission gate only runs after the idempotency lookup misses. -/
theorem C6_counterexample :
    (activeRunsCount c6Db 1 : Int) ≥ effectiveMaxConcurrentRuns 1 ∧
    findApiKey c6Db 1 = some { id := 1, maxConcurrentRuns := 1 } ∧
    (CreateRun 1 0 { templateName := "", priority := 0, webhookUrl := "" }
      (some "k") none c6Db).1 = Except.ok 10 ∧
    ¬ (CreateRun 1 0 { templateName := "", priority := 0, webhookUrl := "" }
      (some "k") none c6Db).1 = Except.error RepoError.limitExceeded := by decide

def c6wDb : DB :=
  { apiKeys := [{ id := 1, maxConcurrentRuns := 1 }],
    runs := [{ id := 10, apiKeyId := 1, status := RunStatus.running, priority := 0,
               webhookUrl := "", webhookSecret := "", totalCostUsd := 0, updatedAt := 0 }],
    steps := [], events := [], runRequests := [], templates := [], nextId := 100 }

/-- Witness for the amended C6: with no idempotency key and the tenant at its
ceiling, create fails with limit-exceeded and changes nothing. -/
theorem C6_concurrent_limit_amended_witness :
    findApiKey c6wDb 1 = some { id := 1, maxConcurrentRuns := 1 } ∧
    (((CreateRun 1 0 { templateName := "", priority := 0, webhookUrl := "" }
        none none c6wDb).1 = Except.error RepoError.limitExceeded ↔
      (activeRunsCount c6wDb 1 : Int) ≥ effectiveMaxConcurrentRuns 1) ∧
     ((activeRunsCount c6wDb 1 : Int) ≥ effectiveMaxConcurrentRuns 1 →
      (CreateRun 1 0 { templateName := "", priority := 0, webhookUrl := "" }
        none none c6wDb).2 = c6wDb)) :=
  ⟨by decide,
   C6_concurrent_limit_amended 1 0
     { templateName := "", priority := 0, webhookUrl := "" } none none c6wDb
     { id := 1, maxConcurrentRuns := 1 } (by decide) (fun k hk => by cases hk)⟩

/-! ## C5: idempotent run creation -/

/-- The bindings a table holds for one (tenant, idempotency key) pair. -/
def bindingsFor (l : List RunRequestRow) (t : Nat) (kk : String) : List RunRequestRow :=
  l.filter (fun rr => rr.apiKeyId = t && rr.idempotencyKey = kk)

theorem insertTemplateSteps_runRequests (now : Int) (runId : Nat) :
    ∀ (ts : List TemplateStepRow) (db : DB),
      (insertTemplateSteps now runId db ts).runRequests = db.runRequests := by
  intro ts
  induction ts with
  | nil => intro db; rfl
  | cons t ts ih => intro db; exact ih _

theorem filter_single_binding (t caller : Nat) (kk k : String) (b : RunRequestRow)
    (hbt : b.apiKeyId = caller) (hbk : b.idempotencyKey = k)
    (hne : ¬(t = caller ∧ kk = k)) :
    List.filter (fun rr => rr.apiKeyId = t && rr.idempotencyKey = kk) [b] = [] := by
  simp only [List.filter_cons, List.filter_nil]
  rw [if_neg]
  intro hcon
  simp only [Bool.and_eq_true, decide_eq_true_eq] at hcon
  have h1 : t = caller := by rw [← hcon.1, hbt]
  have h2 : kk = k := by rw [← hcon.2, hbk]
  exact hne ⟨h1, h2⟩

/-- Claim C5: (a) a create-run call whose idempotency key the initial lookup
finds bound returns the bound run's id and commits nothing; (b) when the
lookup misses but a concurrent transaction has committed a binding for the
same (tenant, key) — so the binding insert hits the unique violation — the
retried lookup returns the winner's run id and this transaction commits
nothing; (c) at most one binding per (tenant, key) ever exists: the
uniqueness invariant over the committed bindings (including the racing row)
is preserved by every create-run call. -/
theorem C5_idempotent_create (caller : Nat) (now : Int) (params : CreateRunParams)
    (k : String) (race : Option RunRequestRow) (db : DB) :
    (∀ rr, findRunRequest db caller k = some rr →
      CreateRun caller now params (some k) race db = (Except.ok rr.runId, db)) ∧
    (∀ w key ts, findRunRequest db caller k = none →
      race = some w → w.apiKeyId = caller → w.idempotencyKey = k →
      findApiKey db caller = some key →
      ¬ (activeRunsCount db caller : Int) ≥
        effectiveMaxConcurrentRuns key.maxConcurrentRuns →
      loadWorkflowTemplateSteps db (resolvedTemplateName params) = some ts →
      CreateRun caller now params (some k) race db = (Except.ok w.runId, db)) ∧
    ((∀ t kk, (bindingsFor (db.runRequests ++ race.toList) t kk).length ≤ 1) →
      ∀ t kk, (bindingsFor
        ((CreateRun caller now params (some k) race db).2.runRequests ++ race.toList)
        t kk).length ≤ 1) := by
  refine ⟨?_, ?_, ?_⟩
  · intro rr hrr
    unfold CreateRun
    dsimp only
    rw [hrr]
  · intro w key ts hnone hrace hwt hwk hkey hg hload
    subst hrace
    unfold CreateRun
    dsimp only
    rw [hnone, hkey]
    dsimp only
    rw [if_neg hg, hload]
    dsimp only
    have hfilter : (db.runRequests ++ (some w).toList).filter (fun rr =>
        rr.apiKeyId = caller && rr.idempotencyKey = k) = [w] := by
      rw [List.filter_append]
      have h1 : db.runRequests.filter (fun rr =>
          rr.apiKeyId = caller && rr.idempotencyKey = k) = [] := by
        have := hnone
        unfold findRunRequest at this
        exact List.head?_eq_none_iff.mp this
      rw [h1]
      simp [hwt, hwk]
    rw [hfilter]
    rfl
  · intro huniq t kk
    unfold CreateRun
    dsimp only
    split
    · exact huniq t kk
    · split
      · exact huniq t kk
      · split
        · exact huniq t kk
        · split
          · exact huniq t kk
          · split
            · exact huniq t kk
            next hw =>
              dsimp only
              rw [insertTemplateSteps_runRequests]
              have hempty := List.head?_eq_none_iff.mp hw
              rw [List.filter_append] at hempty
              rcases List.append_eq_nil.mp hempty with ⟨he1, he2⟩
              unfold bindingsFor
              dsimp only
              rw [List.filter_append, List.filter_append, List.length_append,
                List.length_append]
              by_cases hsame : t = caller ∧ kk = k
              · rcases hsame with ⟨rfl, rfl⟩
                rw [he1, he2]
                simp only [List.length_nil, Nat.zero_add, Nat.add_zero]
                exact List.length_filter_le _ _
              · rw [filter_single_binding t caller kk k _ rfl rfl hsame]
                have horig := huniq t kk
                unfold bindingsFor at horig
                rw [List.filter_append, List.length_append] at horig
                simpa using horig

def c5Params : CreateRunParams :=
  { templateName := "", priority := 0, webhookUrl := "" }

def c5Binding : RunRequestRow :=
  { id := 50, apiKeyId := 1, idempotencyKey := "k", runId := 10 }

def c5Db : DB :=
  { apiKeys := [{ id := 1, maxConcurrentRuns := 5 }],
    runs := [{ id := 10, apiKeyId := 1, status := RunStatus.pending, priority := 0,
               webhookUrl := "", webhookSecret := "", totalCostUsd := 0, updatedAt := 0 }],
    steps := [], events := [], runRequests := [c5Binding],
    templates := [{ name := "default",
                    steps := [{ position := 1, name := StepName.llm,
                                timeoutSeconds := none }] }],
    nextId := 100 }

def c5Race : RunRequestRow :=
  { id := 60, apiKeyId := 1, idempotencyKey := "k", runId := 77 }

def c5rDb : DB :=
  { c5Db with runRequests := [] }

/-- Witness for C5: a lookup hit returns the bound run unchanged; a lost
insert race returns the concurrent winner's run id with no commit; and the
one-binding-per-pair invariant is preserved. -/
theorem C5_idempotent_create_witness :
    CreateRun 1 0 c5Params (some "k") none c5Db = (Except.ok 10, c5Db) ∧
    CreateRun 1 0 c5Params (some "k") (some c5Race) c5rDb = (Except.ok 77, c5rDb) ∧
    (∀ t kk, (bindingsFor
      ((CreateRun 1 0 c5Params (some "k") none c5rDb).2.runRequests ++
        (none : Option RunRequestRow).toList) t kk).length ≤ 1) :=
  ⟨(C5_idempotent_create 1 0 c5Params "k" none c5Db).1 c5Binding (by decide),
   (C5_idempotent_create 1 0 c5Params "k" (some c5Race) c5rDb).2.1 c5Race
     { id := 1, maxConcurrentRuns := 5 }
     [{ position := 1, name := StepName.llm, timeoutSeconds := none }]
     (by decide) rfl (by decide) (by decide) (by decide) (by decide) (by decide),
   (C5_idempotent_create 1 0 c5Params "k" none c5rDb).2.2
     (by intro t kk; simp [bindingsFor, c5rDb, c5Db])⟩

/-! ## C8: approve -/

/-- Claim C8: approve on a terminal run is a successful no-op; approve on a
non-terminal run with no WAITING_APPROVAL approval step is a successful
no-op; otherwise the approval step(s) flip to SUCCEEDED with started-at and
finished-at filled where null, a STEP_APPROVED and a RUN_APPROVED event are
appended, and the run's status becomes SUCCEEDED when every step of the run
is then SUCCEEDED and RUNNING otherwise. -/
theorem C8_approve (caller runId : Nat) (now : Int) (db : DB) (r : RunRow)
    (hfind : findRunForApiKey db runId caller = some r) :
    (isTerminalRun r.status = true →
      ApproveRun caller now runId db = (Except.ok (), db)) ∧
    (isTerminalRun r.status = false →
      (db.steps.filter (fun s => s.runId = runId && s.name = StepName.approval &&
        s.status = StepStatus.waitingApproval)).head? = none →
      ApproveRun caller now runId db = (Except.ok (), db)) ∧
    (∀ a, isTerminalRun r.status = false →
      (db.steps.filter (fun s => s.runId = runId && s.name = StepName.approval &&
        s.status = StepStatus.waitingApproval)).head? = some a →
      (ApproveRun caller now runId db).1 = Except.ok () ∧
      (∀ i s, db.steps.get? i = some s → s.runId = runId →
        s.name = StepName.approval → s.status = StepStatus.waitingApproval →
        (ApproveRun caller now runId db).2.steps.get? i = some
          { s with status := StepStatus.succeeded,
                   startedAt := some (s.startedAt.getD now),
                   finishedAt := some (s.finishedAt.getD now) }) ∧
      (∃ e ∈ (ApproveRun caller now runId db).2.events,
        e.type = "STEP_APPROVED" ∧ e.runId = runId ∧ e.stepId = some a.id) ∧
      (∃ e ∈ (ApproveRun caller now runId db).2.events,
        e.type = "RUN_APPROVED" ∧ e.runId = runId) ∧
      ((∀ s ∈ (ApproveRun caller now runId db).2.steps, s.runId = runId →
          s.status = StepStatus.succeeded) →
        ∀ rr ∈ (ApproveRun caller now runId db).2.runs, rr.id = runId →
          rr.status = RunStatus.succeeded) ∧
      ((∃ s ∈ (ApproveRun caller now runId db).2.steps,
          s.runId = runId ∧ s.status ≠ StepStatus.succeeded) →
        ∀ rr ∈ (ApproveRun caller now runId db).2.runs, rr.id = runId →
          rr.status = RunStatus.running)) := by
  refine ⟨?_, ?_, ?_⟩
  · intro hterm
    unfold ApproveRun
    rw [hfind]
    dsimp only
    rw [if_pos hterm]
  · intro hterm hnone
    unfold ApproveRun
    rw [hfind]
    dsimp only
    rw [if_neg (by simp [hterm]), hnone]
    dsimp only
    have hid : db.steps.map (fun s =>
        if s.runId = runId && s.name = StepName.approval &&
            s.status = StepStatus.waitingApproval then
          { s with status := StepStatus.succeeded,
                   startedAt := some (s.startedAt.getD now),
                   finishedAt := some (s.finishedAt.getD now) }
        else s) = db.steps := by
      have hall := List.head?_eq_none_iff.mp hnone
      have hptw : ∀ s ∈ db.steps, (fun s =>
          if s.runId = runId && s.name = StepName.approval &&
              s.status = StepStatus.waitingApproval then
            { s with status := StepStatus.succeeded,
                     startedAt := some (s.startedAt.getD now),
                     finishedAt := some (s.finishedAt.getD now) }
          else s) s = id s := by
        intro s hs
        simp only [id]
        rw [if_neg]
        intro hcon
        have hmem : s ∈ db.steps.filter (fun s => s.runId = runId &&
            s.name = StepName.approval && s.status = StepStatus.waitingApproval) := by
          rw [List.mem_filter]
          exact ⟨hs, hcon⟩
        rw [hall] at hmem
        cases hmem
      rw [List.map_congr_left hptw, List.map_id]
    rw [hid]
  · intro a hterm ha
    unfold ApproveRun
    rw [hfind]
    dsimp only
    rw [if_neg (by simp [hterm]), ha]
    dsimp only
    refine ⟨rfl, ?_, ?_, ?_, ?_, ?_⟩
    · intro i s hget hrun hname hstat
      simp only [insertEvent, updateRunById]
      rw [List.get?_map, hget]
      simp [hrun, hname, hstat]
    · simp only [insertEvent, updateRunById]
      refine ⟨_, List.mem_append_left _ (List.mem_append_right _
        (List.mem_singleton_self _)), rfl, rfl, rfl⟩
    · simp only [insertEvent, updateRunById]
      refine ⟨_, List.mem_append_right _ (List.mem_singleton_self _), rfl, rfl⟩
    · intro hall rr hrr hrid
      simp only [insertEvent, updateRunById] at hall hrr ⊢
      rcases List.mem_map.mp hrr with ⟨r0, hr0, heq⟩
      by_cases hc : r0.id = runId
      · rw [← heq]
        rw [if_pos hc]
        dsimp only
        rw [if_pos]
        rw [List.length_eq_zero]
        apply List.filter_eq_nil_iff.mpr
        intro s hs
        simp only [Bool.and_eq_true, Bool.not_eq_true', decide_eq_true_eq,
          decide_eq_false_iff_not, not_and, not_not]
        exact hall s hs
      · rw [← heq] at hrid
        rw [if_neg hc] at hrid
        exact absurd hrid hc
    · intro hbad rr hrr hrid
      simp only [insertEvent, updateRunById] at hbad hrr ⊢
      rcases List.mem_map.mp hrr with ⟨r0, hr0, heq⟩
      by_cases hc : r0.id = runId
      · rw [← heq]
        rw [if_pos hc]
        dsimp only
        rw [if_neg]
        intro hzero
        rw [List.length_eq_zero] at hzero
        rcases hbad with ⟨s, hs, hsrun, hsstat⟩
        have hnil := List.filter_eq_nil_iff.mp hzero
        have hcontra := hnil s hs
        simp only [Bool.and_eq_true, Bool.not_eq_true', decide_eq_true_eq,
          decide_eq_false_iff_not, not_and, not_not] at hcontra
        exact absurd (hcontra hsrun) hsstat
      · rw [← heq] at hrid
        rw [if_neg hc] at hrid
        exact absurd hrid hc

def c8Run : RunRow :=
  { id := 10, apiKeyId := 1, status := RunStatus.running, priority := 0,
    webhookUrl := "", webhookSecret := "", totalCostUsd := 0, updatedAt := 0 }

def c8ApprovalStep : StepRow :=
  { id := 23, runId := 10, name := StepName.approval,
    status := StepStatus.waitingApproval, timeoutSeconds := none,
    nextRunAt := none, costUsd := 0, input := none, output := none,
    startedAt := none, finishedAt := none, attempts := 0, createdAt := 3 }

def c8Db : DB :=
  { apiKeys := [{ id := 1, maxConcurrentRuns := 5 }],
    runs := [c8Run],
    steps := [{ id := 21, runId := 10, name := StepName.llm,
                status := StepStatus.succeeded, timeoutSeconds := none,
                nextRunAt := none, costUsd := 0, input := none, output := none,
                startedAt := some 0, finishedAt := some 1, attempts := 1, createdAt := 1 },
              { id := 22, runId := 10, name := StepName.tool,
                status := StepStatus.succeeded, timeoutSeconds := none,
                nextRunAt := none, costUsd := 0, input := none, output := none,
                startedAt := some 1, finishedAt := some 2, attempts := 1, createdAt := 2 },
              c8ApprovalStep],
    events := [], runRequests := [], templates := [], nextId := 100 }

/-- Witness for C8: approving a RUNNING run whose APPROVAL step waits flips
that step, and — every other step being SUCCEEDED — the run becomes
SUCCEEDED. -/
theorem C8_approve_witness :
    findRunForApiKey c8Db 10 1 = some c8Run ∧
    isTerminalRun c8Run.status = false ∧
    (ApproveRun 1 99 10 c8Db).1 = Except.ok () ∧
    (findStepById (ApproveRun 1 99 10 c8Db).2 23).map StepRow.status =
      some StepStatus.succeeded ∧
    (findRunById (ApproveRun 1 99 10 c8Db).2 10).map RunRow.status =
      some RunStatus.succeeded ∧
    ((ApproveRun 1 99 10 c8Db).2.events.map EventRow.type) =
      ["STEP_APPROVED", "RUN_APPROVED"] :=
  ⟨by decide, by decide,
   ((C8_approve 1 10 99 c8Db c8Run (by decide)).2.2 c8ApprovalStep
     (by decide) (by decide)).1,
   by decide, by decide, by decide⟩

/-! ## C9: the terminal webhook dispatcher -/

theorem hexDigits_getD_mem (i : Nat) (h : i < 16) :
    hexDigits.getD i '0' ∈ hexDigits := by
  interval_cases i <;> decide

theorem hexEncode_chars (bs : List Nat) :
    ∀ c ∈ (hexEncode bs).data, c ∈ hexDigits := by
  intro c hc
  have hc2 : c ∈ bs.flatMap hexByte := hc
  rcases List.mem_flatMap.mp hc2 with ⟨b, _, hcb⟩
  unfold hexByte at hcb
  rcases List.mem_cons.mp hcb with h | h
  · rw [h]
    exact hexDigits_getD_mem _ (Nat.mod_lt _ (by norm_num))
  · rcases List.mem_cons.mp h with h2 | h2
    · rw [h2]
      exact hexDigits_getD_mem _ (Nat.mod_lt _ (by norm_num))
    · exact absurd h2 (List.not_mem_nil _)

theorem hexEncode_ne_empty (b : Nat) (bs : List Nat) : hexEncode (b :: bs) ≠ "" := by
  intro h
  have hdata : (hexEncode (b :: bs)).data = "".data := by rw [h]
  have hnil : "".data = [] := by decide
  rw [hnil] at hdata
  unfold hexEncode hexByte at hdata
  simp at hdata

theorem deliverLoop_requests_all (world : WebhookWorld) (req : WebhookRequest) :
    ∀ (fuel attempt : Nat),
      ∀ q ∈ (deliverLoop world req attempt fuel).requests, q = req := by
  intro fuel
  induction fuel with
  | zero => intro attempt q hq; cases hq
  | succ fuel ih =>
    intro attempt q hq
    unfold deliverLoop at hq
    dsimp only at hq
    split at hq
    · simpa using hq
    · split at hq
      · simpa using hq
      · split at hq
        · simpa using hq
        · rcases List.mem_cons.mp hq with h | h
          · exact h
          · exact ih (attempt + 1) q h

theorem deliverLoop_length_le (world : WebhookWorld) (req : WebhookRequest) :
    ∀ (fuel attempt : Nat),
      (deliverLoop world req attempt fuel).requests.length ≤ fuel := by
  intro fuel
  induction fuel with
  | zero => intro attempt; exact Nat.le_refl 0
  | succ fuel ih =>
    intro attempt
    unfold deliverLoop
    dsimp only
    split
    · simp
    · split
      · simp
      · split
        · simp
        · simpa using Nat.succ_le_succ (ih (attempt + 1))

theorem deliverLoop_length_pos (world : WebhookWorld) (req : WebhookRequest) :
    ∀ (fuel attempt : Nat), 0 < fuel →
      0 < (deliverLoop world req attempt fuel).requests.length := by
  intro fuel
  cases fuel with
  | zero => intro attempt h; cases h
  | succ fuel =>
    intro attempt _
    unfold deliverLoop
    dsimp only
    split
    · simp
    · split
      · simp
      · split
        · simp
        · simp

theorem deliverLoop_no_early_success (world : WebhookWorld) (req : WebhookRequest) :
    ∀ (fuel attempt i : Nat),
      i + 1 < (deliverLoop world req attempt fuel).requests.length →
      webhookSuccess (world.results (attempt + i)) = false := by
  intro fuel
  induction fuel with
  | zero => intro attempt i h; cases h
  | succ fuel ih =>
    intro attempt i h
    unfold deliverLoop at h
    dsimp only at h
    split at h
    · simp at h
    · split at h
      · simp at h
      · split at h
        · simp at h
        · rename_i hsucc hfuel hcancel
          simp only [List.length_cons] at h
          cases i with
          | zero => simpa using Bool.eq_false_iff.mpr hsucc
          | succ i =>
            have := ih (attempt + 1) i (by omega)
            have harith : attempt + 1 + i = attempt + (i + 1) := by omega
            rw [harith] at this
            exact this

theorem deliverLoop_sleeps (world : WebhookWorld) (req : WebhookRequest) :
    ∀ (fuel attempt : Nat), 1 ≤ attempt →
      (deliverLoop world req attempt fuel).sleeps =
        (List.range ((deliverLoop world req attempt fuel).requests.length - 1)).map
          (fun i => webhookRetryBase * 2 ^ (attempt - 1 + i)) := by
  intro fuel
  induction fuel with
  | zero => intro attempt _; rfl
  | succ fuel ih =>
    intro attempt hatt
    unfold deliverLoop
    dsimp only
    split
    · simp
    · split
      · simp
      · split
        · simp
        · rename_i hsucc hfuel hcancel
          simp only [List.length_cons]
          have hpos : 0 < (deliverLoop world req (attempt + 1) fuel).requests.length :=
            deliverLoop_length_pos world req fuel (attempt + 1) (Nat.pos_of_ne_zero hfuel)
          rcases Nat.exists_eq_add_of_lt hpos with ⟨m, hm⟩
          rw [ih (attempt + 1) (by omega)]
          rw [hm]
          have h1 : 0 + m + 1 - 1 = m := by omega
          have h2 : 0 + m + 1 + 1 - 1 = m + 1 := by omega
          rw [h1, h2, List.range_succ_eq_map]
          simp only [List.map_cons, List.map_map]
          congr 1
          apply List.map_congr_left
          intro i _
          simp only [Function.comp]
          have h4 : attempt + 1 - 1 + i = attempt - 1 + (i + 1) := by omega
          rw [h4]

theorem deliverLoop_canceled (world : WebhookWorld) (req : WebhookRequest) :
    ∀ (fuel attempt : Nat),
      (deliverLoop world req attempt fuel).canceled = true →
      world.canceledAt
        (attempt + (deliverLoop world req attempt fuel).requests.length - 1) = true ∧
      (deliverLoop world req attempt fuel).requests.length < fuel := by
  intro fuel
  induction fuel with
  | zero => intro attempt h; cases h
  | succ fuel ih =>
    intro attempt h
    unfold deliverLoop at h ⊢
    dsimp only at h ⊢
    split at h
    · cases h
    · split at h
      · cases h
      · split at h
        · rename_i hsucc hfuel hcancel
          rw [if_neg hsucc, if_neg hfuel, if_pos hcancel]
          simp only [List.length_cons, List.length_nil]
          constructor
          · have harith : attempt + (0 + 1) - 1 = attempt := by omega
            rw [harith]
            exact hcancel
          · omega
        · rename_i hsucc hfuel hcancel
          rw [if_neg hsucc, if_neg hfuel, if_neg hcancel]
          have hih := ih (attempt + 1) h
          have hih2 := hih.2
          simp only [List.length_cons]
          constructor
          · have harith : attempt + ((deliverLoop world req (attempt + 1)
              fuel).requests.length + 1) - 1 =
                attempt + 1 + (deliverLoop world req (attempt + 1)
                  fuel).requests.length - 1 := by omega
            rw [harith]
            exact hih.1
          · omega

/-- Claim C9 (amended): for every terminal webhook dispatch — with `mac`
standing for HMAC-SHA256, whose tags are never empty — a blank target URL
sends nothing; when the secret is non-empty after trimming whitespace (the
dispatcher tests the trimmed secret, so a whitespace-only secret sends
unsigned requests), every attempt carries X-Signature equal to the lowercase
hex of the MAC of the exact body bytes; at most 3 POST attempts are made;
every attempt before the last was a failure (the loop stops at the first
status in [200, 300)); the sleeps between attempts are 300 ms · 2^(k−1) in
order; and context cancellation ends the retry loop before its attempts are
exhausted. -/
theorem C9_webhook_amended (mac : String → List Nat → List Nat)
    (world : WebhookWorld) (runId : Nat) (status : RunStatus) (finishedAt : Int)
    (url secret : String)
    (hmac : mac secret (terminalWebhookBody runId status finishedAt) ≠ []) :
    (trimSpace url = "" →
      deliverTerminalWebhook mac world runId status finishedAt url secret =
        { requests := [], sleeps := [], canceled := false }) ∧
    (trimSpace secret ≠ "" →
      ∀ q ∈ (deliverTerminalWebhook mac world runId status finishedAt url secret).requests,
        q.signature = some (hexEncode (mac secret
          (terminalWebhookBody runId status finishedAt))) ∧
        q.body = terminalWebhookBody runId status finishedAt ∧
        q.contentType = "application/json") ∧
    (∀ c ∈ (hexEncode (mac secret (terminalWebhookBody runId status finishedAt))).data,
      c ∈ hexDigits) ∧
    (deliverTerminalWebhook mac world runId status finishedAt url secret).requests.length
      ≤ 3 ∧
    (∀ i, i + 1 <
        (deliverTerminalWebhook mac world runId status finishedAt url secret).requests.length →
      webhookSuccess (world.results (1 + i)) = false) ∧
    (deliverTerminalWebhook mac world runId status finishedAt url secret).sleeps =
      (List.range ((deliverTerminalWebhook mac world runId status finishedAt
        url secret).requests.length - 1)).map (fun i => webhookRetryBase * 2 ^ i) ∧
    ((deliverTerminalWebhook mac world runId status finishedAt url secret).canceled
        = true →
      world.canceledAt (deliverTerminalWebhook mac world runId status finishedAt
        url secret).requests.length = true ∧
      (deliverTerminalWebhook mac world runId status finishedAt
        url secret).requests.length < 3) := by
  by_cases hurl : trimSpace url = ""
  · refine ⟨fun _ => ?_, ?_, hexEncode_chars _, ?_, ?_, ?_, ?_⟩ <;>
      simp [deliverTerminalWebhook, hurl]
  · have hred : deliverTerminalWebhook mac world runId status finishedAt url secret =
        deliverLoop world
          { url := trimSpace url, contentType := "application/json",
            signature :=
              if signWebhookPayload mac secret
                  (terminalWebhookBody runId status finishedAt) = "" then none
              else some (signWebhookPayload mac secret
                (terminalWebhookBody runId status finishedAt)),
            body := terminalWebhookBody runId status finishedAt } 1
          webhookRetryAttempts := by
      unfold deliverTerminalWebhook
      rw [if_neg hurl]
    refine ⟨fun h => absurd h hurl, ?_, hexEncode_chars _, ?_, ?_, ?_, ?_⟩
    · intro hsec q hq
      rw [hred] at hq
      have hqr := deliverLoop_requests_all world _ webhookRetryAttempts 1 q hq
      rw [hqr]
      have hsig : signWebhookPayload mac secret
          (terminalWebhookBody runId status finishedAt) =
          hexEncode (mac secret (terminalWebhookBody runId status finishedAt)) := by
        unfold signWebhookPayload
        rw [if_neg hsec]
      refine ⟨?_, rfl, rfl⟩
      show (if signWebhookPayload mac secret
          (terminalWebhookBody runId status finishedAt) = "" then none
        else some (signWebhookPayload mac secret
          (terminalWebhookBody runId status finishedAt))) = _
      rw [hsig]
      rw [if_neg ?hne]
      case hne =>
        cases hb : mac secret (terminalWebhookBody runId status finishedAt) with
        | nil => exact absurd hb hmac
        | cons b bs => exact hexEncode_ne_empty b bs
    · rw [hred]
      exact deliverLoop_length_le world _ webhookRetryAttempts 1
    · intro i hi
      rw [hred] at hi
      exact deliverLoop_no_early_success world _ webhookRetryAttempts 1 i hi
    · rw [hred]
      have := deliverLoop_sleeps world
        { url := trimSpace url, contentType := "application/json",
          signature :=
            if signWebhookPayload mac secret
                (terminalWebhookBody runId status finishedAt) = "" then none
            else some (signWebhookPayload mac secret
              (terminalWebhookBody runId status finishedAt)),
          body := terminalWebhookBody runId status finishedAt }
        webhookRetryAttempts 1 (Nat.le_refl 1)
      rw [this]
      apply List.map_congr_left
      intro i _
      have h5 : 1 - 1 + i = i := by omega
      rw [h5]
    · intro h
      rw [hred] at h ⊢
      have hc := deliverLoop_canceled world
        { url := trimSpace url, contentType := "application/json",
          signature :=
            if signWebhookPayload mac secret
                (terminalWebhookBody runId status finishedAt) = "" then none
            else some (signWebhookPayload mac secret
              (terminalWebhookBody runId status finishedAt)),
          body := terminalWebhookBody runId status finishedAt }
        webhookRetryAttempts 1 h
      refine ⟨?_, hc.2⟩
      have harith : ∀ n : Nat, 1 + n - 1 = n := fun n => by omega
      rw [harith] at hc
      exact hc.1

def c9Mac : String → List Nat → List Nat := fun _ _ => [171]

def c9World : WebhookWorld :=
  { results := fun _ => HttpResult.transportError, canceledAt := fun _ => false }

/-- Counterexample to C9 as stated: the secret " " is non-empty, yet no
attempt carries an X-Signature header — the dispatcher signs only when the
secret is non-empty after trimming whitespace, and here the MAC of the body
would have hex "ab". -/
theorem C9_counterexample :
    (" " : String) ≠ "" ∧
    hexEncode (c9Mac " " (terminalWebhookBody 10 RunStatus.failed 0)) = "ab" ∧
    (deliverTerminalWebhook c9Mac c9World 10 RunStatus.failed 0 "http://x" " ").requests.map
      WebhookRequest.signature = [none, none, none] := by decide

/-- Witness for the amended C9: with a real secret every attempt is signed,
three attempts are made against a failing endpoint, and the sleeps are
300 ms and 600 ms. -/
theorem C9_webhook_amended_witness :
    c9Mac "s" (terminalWebhookBody 10 RunStatus.failed 0) ≠ [] ∧
    (trimSpace "s" ≠ "" →
      ∀ q ∈ (deliverTerminalWebhook c9Mac c9World 10 RunStatus.failed 0
          "http://x" "s").requests,
        q.signature = some (hexEncode (c9Mac "s"
          (terminalWebhookBody 10 RunStatus.failed 0))) ∧
        q.body = terminalWebhookBody 10 RunStatus.failed 0 ∧
        q.contentType = "application/json") ∧
    (deliverTerminalWebhook c9Mac c9World 10 RunStatus.failed 0
      "http://x" "s").requests.length = 3 ∧
    (deliverTerminalWebhook c9Mac c9World 10 RunStatus.failed 0
      "http://x" "s").sleeps = [300000000, 600000000] :=
  ⟨by decide,
   (C9_webhook_amended c9Mac c9World 10 RunStatus.failed 0 "http://x" "s"
     (by decide)).2.1,
   by decide, by decide⟩

end AgentRuntime
